import Mathlib

/-!
# CGRA-Mapper: the pass shell `mapperPass.cpp`

A shallow embedding of `src/src/mapperPass.cpp`: the kernel registry
(`addDefaultKernels`), loop selection (`getTargetLoopsImpl`), the early
feasibility test (`canMapImpl`), configuration loading and the driver
(`runMapperImpl`).

Conventions.
* `std::map<string, V>` is a key-sorted association list (`StrMap V`), searched
  and updated with the comparison `strLt` only, as `std::less<string>` does.
* `std::set<string>` is a strictly ascending list of strings.
* The classes `DFG`, `CGRA`, `Mapper` (header `Mapper.h`) are not part of the
  sources at hand; their methods are the fields of `World`.
* Console output and calls into those classes are recorded as a list of
  `Event`s, in program order.
-/

namespace CGRAMapper

/-! ## Strings, `std::map<string, _>` and `std::set<string>` -/

/-- Lexicographic comparison of two character sequences, the `operator<` of
`std::string`. -/
def charsLt : List Char → List Char → Bool
  | [], [] => false
  | [], _ :: _ => true
  | _ :: _, [] => false
  | a :: as, b :: bs =>
    if a.toNat < b.toNat then true
    else if b.toNat < a.toNat then false
    else charsLt as bs

/-- The ordering `std::less<std::string>`. -/
def strLt (a b : String) : Bool := charsLt a.data b.data

/-- A `std::map<std::string, V>`: entries kept in ascending key order. -/
abbrev StrMap (V : Type) := List (String × V)

/-- The lookup `m.find(k)` / `m.at(k)`: the entry whose key is equivalent to
`k` under `strLt`; `none` stands for `end()`. -/
def mapFind {V : Type} : StrMap V → String → Option V
  | [], _ => none
  | (k', v') :: rest, k =>
    if strLt k k' || strLt k' k then mapFind rest k else some v'

/-- The assignment `m[k] = v`: replaces the value of an existing entry, or
inserts a new entry at its place in key order. -/
def mapSet {V : Type} : StrMap V → String → V → StrMap V
  | [], k, v => [(k, v)]
  | (k', v') :: rest, k, v =>
    if strLt k k' then (k, v) :: (k', v') :: rest
    else if strLt k' k then (k', v') :: mapSet rest k v
    else (k', v) :: rest

/-- The in-place update `m[k]->push_back(x)` of a map of lists; on a key that
is absent the C++ code would dereference a null pointer, the model leaves the
map as it is (the sources only use it right after `m[k] = new list`). -/
def mapPushBack {V : Type} : StrMap (List V) → String → V → StrMap (List V)
  | [], _, _ => []
  | (k', l) :: rest, k, x =>
    if strLt k k' || strLt k' k then (k', l) :: mapPushBack rest k x
    else (k', l ++ [x]) :: rest

/-- The insertion `s.insert(x)` of a `std::set<std::string>`. -/
def setInsert : List String → String → List String
  | [], x => [x]
  | y :: rest, x =>
    if strLt x y then x :: y :: rest
    else if strLt y x then y :: setInsert rest x
    else y :: rest

/-! ## The kernel registry -/

/-- The registry `map<string, list<int>*>` from kernel names to loop ids. -/
abbrev Registry := StrMap (List Int)

/-- The two statements `(*m)[name] = new list<int>(); (*m)[name]->push_back(id);`. -/
def registerKernel (m : Registry) (name : String) (id : Int) : Registry :=
  mapPushBack (mapSet m name []) name id

/-- The registrations of `addDefaultKernels`, in source order. -/
def defaultKernelList : List (String × Int) :=
  [ ("_Z12ARENA_kerneliii", 0),
    ("_Z4spmviiPiS_S_", 0),
    ("_Z4spmvPiii", 0),
    ("adpcm_coder", 0),
    ("adpcm_decoder", 0),
    ("kernel_gemm", 0),
    ("kernel", 0),
    ("_Z6kerneli", 0),
    ("_Z6kernelPfPi", 0),
    ("_Z6kernelPfS_", 0),
    ("_Z6kernelPfS_S_", 0),
    ("_Z6kerneliPPiS_S_S_", 0),
    ("_Z6kernelPPii", 0),
    ("_Z6kernelP7RGBType", 0),
    ("_Z6kernelP7RGBTypePi", 0),
    ("_Z6kernelP7RGBTypeP4Vect", 0),
    ("fir", 0),
    ("spmv", 0),
    ("latnrm", 1),
    ("fft", 0),
    ("BF_encrypt", 0),
    ("susan_smoothing", 0),
    ("_Z9LUPSolve0PPdPiS_iS_", 0),
    ("_Z6kernelPPdidPi", 0),
    ("_Z6kernelPPdPiS_iS_", 0),
    ("_Z6kernelPPdPii", 0),
    ("_Z6kernelPPdPiiS0_", 0),
    ("_Z6kernelPiS_i", 0),
    ("_Z6kernelPfS_f", 0),
    ("_Z6kernelPiS_", 0),
    ("_Z6kernelPfS_", 0),
    ("_Z6kernelPfS_ff", 0),
    ("_Z6kernelPiS_ii", 0),
    ("_Z6kernelPfS_if", 0),
    ("_Z6kernelPiS_S_", 0) ]

/-- The function `addDefaultKernels`: registers each default kernel in turn. -/
def addDefaultKernels (t_functionWithLoop : Registry) : Registry :=
  defaultKernelList.foldl (fun m p => registerKernel m p.1 p.2) t_functionWithLoop

/-! ## Loop selection -/

/-- A loop of the host compiler (`llvm::Loop`): a label identifying the loop and
its immediate subloops, in the order of `getSubLoops()`. -/
inductive Loop where
  | mk (label : Nat) (subLoops : List Loop)

/-- The accessor `getSubLoops()`. -/
def Loop.getSubLoops : Loop → List Loop
  | .mk _ s => s

/-- The accessor for the label of a loop. -/
def Loop.label : Loop → Nat
  | .mk l _ => l

/-- The inner `while (!current_loop->getSubLoops().empty()) current_loop =
current_loop->getSubLoops()[0];` of `getTargetLoopsImpl`; the value is
`current_loop` after the loop. -/
def descendSubLoops : Loop → Loop
  | .mk l [] => .mk l []
  | .mk _ (s :: _) => descendSubLoops s

/-- The `for (loopItr = LI.begin(); ...)` scan of `getTargetLoopsImpl`, entered
with the remaining top-level loops and the counter `tempLoopID`: the loop
pushed to `targetLoops`, if the scan reaches `targetLoopID`. -/
def scanTopLevel (targetLoopID : Int) (t_targetNested : Bool) : List Loop → Int → Option Loop
  | [], _ => none
  | current_loop :: rest, tempLoopID =>
    if tempLoopID = targetLoopID then
      some (if !t_targetNested then descendSubLoops current_loop else current_loop)
    else scanTopLevel targetLoopID t_targetNested rest (tempLoopID + 1)

/-- The outer `while (... ->size() > 0)` of `getTargetLoopsImpl`, entered with
the ids still in the registry list and `targetLoops` so far. -/
def collectTargetLoops (t_targetNested : Bool) (LI : List Loop) : List Int → List Loop → List Loop
  | [], targetLoops => targetLoops
  | targetLoopID :: ids, targetLoops =>
    match scanTopLevel targetLoopID t_targetNested LI 0 with
    | some l => collectTargetLoops t_targetNested LI ids (targetLoops ++ [l])
    | none => collectTargetLoops t_targetNested LI ids targetLoops

/-- Exceptions and aborts that the pass can raise. -/
inductive Exn where
  /-- The exception `out_of_range`: a key that `at` did not find. -/
  | outOfRange (key : String)
  /-- The exception `type_error` of the JSON library: a value of the wrong kind. -/
  | typeError
  /-- A failed `assert`. -/
  | assertion
  deriving DecidableEq, Repr

/-- The function `getTargetLoopsImpl`, for the function named `fname` and the
top-level loops `LI` (in the order of `LI.begin() .. LI.end()`): the selected
loops, and the registry after the call (the id list of `fname` is consumed).
`at` throws when `fname` has no entry. -/
def getTargetLoopsImpl (fname : String) (t_functionWithLoop : Registry)
    (t_targetNested : Bool) (LI : List Loop) : Except Exn (List Loop × Registry) :=
  match mapFind t_functionWithLoop fname with
  | none => .error (.outOfRange fname)
  | some ids =>
    .ok (collectTargetLoops t_targetNested LI ids [], mapSet t_functionWithLoop fname [])

/-! ## The early feasibility test -/

/-- The part of `CGRA` that `canMapImpl` reads: `getRows()`, `getColumns()` and
the tile grid `nodes[i][j]` (`none` is a null pointer). -/
structure CGRA (Tile : Type) where
  rows : Int
  columns : Int
  nodes : Nat → Nat → Option Tile

/-- The part of `DFG` that `canMapImpl` reads: the node list. -/
structure DFG (Node : Type) where
  nodes : List Node

/-- The inner `for (j = 0; j < getColumns(); ++j)` of `canMapImpl` on row `i`,
entered at column `j` with `n` columns left: `nodeSupported` after the loop. -/
def scanColumns {Node Tile : Type} (canSupport : Tile → Node → Bool) (t_cgra : CGRA Tile)
    (node : Node) (i : Nat) : Nat → Nat → Bool
  | 0, _ => false
  | n + 1, j =>
    match t_cgra.nodes i j with
    | some fu => if canSupport fu node then true else scanColumns canSupport t_cgra node i n (j + 1)
    | none => scanColumns canSupport t_cgra node i n (j + 1)

/-- The outer `for (i = 0; i < getRows() && !nodeSupported; ++i)` of
`canMapImpl`, entered at row `i` with `n` rows left: `nodeSupported` after the
loop. -/
def scanRows {Node Tile : Type} (canSupport : Tile → Node → Bool) (t_cgra : CGRA Tile)
    (node : Node) : Nat → Nat → Bool
  | 0, _ => false
  | n + 1, i =>
    if scanColumns canSupport t_cgra node i t_cgra.columns.toNat 0 then true
    else scanRows canSupport t_cgra node n (i + 1)

/-- The value of `nodeSupported` for one DFG node. -/
def nodeSupported {Node Tile : Type} (canSupport : Tile → Node → Bool) (t_cgra : CGRA Tile)
    (node : Node) : Bool :=
  scanRows canSupport t_cgra node t_cgra.rows.toNat 0

/-- The set `missing_fus` after the loop over the DFG nodes. -/
def collectMissingFus {Node Tile : Type} (canSupport : Tile → Node → Bool)
    (getOpcodeName : Node → String) (t_cgra : CGRA Tile) :
    List Node → List String → List String
  | [], missing_fus => missing_fus
  | node :: rest, missing_fus =>
    if nodeSupported canSupport t_cgra node then
      collectMissingFus canSupport getOpcodeName t_cgra rest missing_fus
    else
      collectMissingFus canSupport getOpcodeName t_cgra rest
        (setInsert missing_fus (getOpcodeName node))

/-- The function `canMapImpl`: the returned flag, and the names printed after
`[canMap] Missing functional units:` (none when it returns `true`). -/
def canMapImpl {Node Tile : Type} (canSupport : Tile → Node → Bool)
    (getOpcodeName : Node → String) (t_cgra : CGRA Tile) (t_dfg : DFG Node) :
    Bool × List String :=
  let missing_fus := collectMissingFus canSupport getOpcodeName t_cgra t_dfg.nodes []
  if !missing_fus.isEmpty then (false, missing_fus) else (true, [])

/-! ## JSON values (`nlohmann::json`, alias `njson`) -/

/-- A parsed JSON value. Numbers are integers (floating-point numbers are not
modelled); an object is a `std::map` from keys to values. -/
inductive Json where
  | null
  | bool (b : Bool)
  | num (n : Int)
  | str (s : String)
  | arr (xs : List Json)
  | obj (kvs : List (String × Json))

/-- The conversion of a 64-bit number to `int`: reduction modulo `2^32` into
the signed 32-bit range. -/
def toInt32 (n : Int) : Int := (n + 2147483648) % 4294967296 - 2147483648

/-- The implicit conversion of a JSON value to `int`: numbers are narrowed,
booleans become 0 or 1, anything else is a `type_error`. -/
def Json.getInt : Json → Except Exn Int
  | .num n => .ok (toInt32 n)
  | .bool b => .ok (if b then 1 else 0)
  | _ => .error .typeError

/-- The implicit conversion of a JSON value to `bool`. -/
def Json.getBool : Json → Except Exn Bool
  | .bool b => .ok b
  | _ => .error .typeError

/-- The implicit conversion of a JSON value to `std::string`. -/
def Json.getString : Json → Except Exn String
  | .str s => .ok s
  | _ => .error .typeError

/-- The member `size()`: 0 for null, the number of elements of an array or
object, 1 for any other value. -/
def Json.size : Json → Nat
  | .null => 0
  | .arr xs => xs.length
  | .obj kvs => kvs.length
  | _ => 1

/-- The indexing `j[idx]` with an integer index: defined on arrays (and on
null, which it turns into an array), a `type_error` on anything else. -/
def Json.atIdx : Json → Nat → Except Exn Json
  | .arr xs, idx => .ok (xs.getD idx .null)
  | .null, _ => .ok .null
  | _, _ => .error .typeError

/-- The keys that `items()` gives to the elements of an array, from index `i`. -/
def indexItems : List Json → Nat → List (String × Json)
  | [], _ => []
  | x :: xs, i => (toString i, x) :: indexItems xs (i + 1)

/-- The iteration `j.items()`: key and value of each element. -/
def Json.items : Json → List (String × Json)
  | .null => []
  | .obj kvs => kvs
  | .arr xs => indexItems xs 0
  | v => [("", v)]

/-- The indexing `param[key]` of the (non-const) configuration object: the
member, or null for a key that is absent. -/
def jsonAt (param : StrMap Json) (key : String) : Json :=
  (mapFind param key).getD .null

/-- The loop `for (idx = 0; idx < (int)j.size(); ++idx) out.push_back(j[idx]);`
with the conversion `conv` of each element, entered at `idx` with `n` elements
left: the elements pushed, in order. -/
def convertElements {α : Type} (conv : Json → Except Exn α) (j : Json) :
    Nat → Nat → Except Exn (List α)
  | 0, _ => .ok []
  | n + 1, idx =>
    match j.atIdx idx with
    | .error e => .error e
    | .ok v =>
      match conv v with
      | .error e => .error e
      | .ok x =>
        match convertElements conv j n (idx + 1) with
        | .error e => .error e
        | .ok rest => .ok (x :: rest)

/-- The elements of `j` converted by `conv`, in index order. -/
def Json.elements {α : Type} (conv : Json → Except Exn α) (j : Json) : Except Exn (List α) :=
  convertElements conv j j.size 0

/-- The loop `for (auto& opt : j.items())` converting each value by `conv`: the
pairs of key and converted value, in iteration order. -/
def convertItems {α : Type} (conv : Json → Except Exn α) :
    List (String × Json) → Except Exn (List (String × α))
  | [] => .ok []
  | (k, v) :: rest =>
    match conv v with
    | .error e => .error e
    | .ok x =>
      match convertItems conv rest with
      | .error e => .error e
      | .ok xs => .ok ((k, x) :: xs)

/-! ## Configuration -/

/-- The local variables of `runMapperImpl` that hold the parameters, the
tables it allocates, the registry `functionWithLoop`, and the value assigned
to the global `testing_opcode_offset` (`none` when it is left untouched). -/
structure Params where
  rows : Int
  columns : Int
  targetEntireFunction : Bool
  targetNested : Bool
  doCGRAMapping : Bool
  isStaticElasticCGRA : Bool
  isTrimmedDemo : Bool
  ctrlMemConstraint : Int
  bypassConstraint : Int
  regConstraint : Int
  precisionAware : Bool
  vectorizationMode : String
  heuristicMapping : Bool
  parameterizableCGRA : Bool
  incrementalMapping : Bool
  supportDVFS : Bool
  DVFSAwareMapping : Bool
  DVFSIslandDim : Int
  enablePowerGating : Bool
  enableExpandableMapping : Bool
  vectorFactorForIdiv : Int
  multiCycleStrategy : String
  execLatency : StrMap Int
  pipelinedOpt : List String
  fusionStrategy : List String
  additionalFunc : StrMap (List Int)
  fusionPattern : StrMap (List String)
  functionWithLoop : Registry
  testing_opcode_offset : Option Int

/-- The initial values of the parameters in `runMapperImpl`, with the registry
as `addDefaultKernels` fills it. -/
def initialParams : Params :=
  { rows := 4
    columns := 4
    targetEntireFunction := false
    targetNested := false
    doCGRAMapping := true
    isStaticElasticCGRA := false
    isTrimmedDemo := true
    ctrlMemConstraint := 200
    bypassConstraint := 4
    regConstraint := 8
    precisionAware := false
    vectorizationMode := "all"
    heuristicMapping := true
    parameterizableCGRA := false
    incrementalMapping := false
    supportDVFS := false
    DVFSAwareMapping := false
    DVFSIslandDim := 2
    enablePowerGating := false
    enableExpandableMapping := false
    vectorFactorForIdiv := 1
    multiCycleStrategy := "exclusive"
    execLatency := []
    pipelinedOpt := []
    fusionStrategy := []
    additionalFunc := []
    fusionPattern := []
    functionWithLoop := addDefaultKernels []
    testing_opcode_offset := none }

/-- The keys inserted into the set `paramKeys`, in source order. -/
def paramKeyInserts : List String :=
  [ "row", "column", "targetFunction", "kernel", "targetNested", "targetLoopsID",
    "isTrimmedDemo", "doCGRAMapping", "isStaticElasticCGRA", "ctrlMemConstraint",
    "bypassConstraint", "regConstraint", "precisionAware", "vectorizationMode",
    "fusionStrategy", "heuristicMapping", "parameterizableCGRA" ]

/-- The set `paramKeys` of `runMapperImpl`. -/
def paramKeys : List String := paramKeyInserts.foldl setInsert []

/-- The loop `for (auto &k : paramKeys) param.at(k);`: the key of the
`out_of_range` exception it throws, if any. -/
def firstMissingKey (param : StrMap Json) : List String → Option String
  | [] => none
  | k :: rest =>
    match mapFind param k with
    | none => some k
    | some _ => firstMissingKey param rest

/-- The key check of `runMapperImpl` on the configuration `param`. -/
def checkParamKeys (param : StrMap Json) : Option String :=
  firstMissingKey param paramKeys

/-- Lines 225-229: the registry entry of `param["kernel"]` is replaced by a
new list, to which the elements of `param["targetLoopsID"]` are pushed. -/
def assignTarget (param : StrMap Json) (p : Params) : Except Exn Params := do
  let kernel ← (jsonAt param "kernel").getString
  let reg := mapSet p.functionWithLoop kernel []
  let loops ← (jsonAt param "targetLoopsID").elements Json.getInt
  pure { p with functionWithLoop := loops.foldl (fun r x => mapPushBack r kernel x) reg }

/-- Lines 232-245: the parameters assigned from keys that the key check
requires. -/
def assignRequired (param : StrMap Json) (p : Params) : Except Exn Params := do
  let rows ← (jsonAt param "row").getInt
  let columns ← (jsonAt param "column").getInt
  let targetEntireFunction ← (jsonAt param "targetFunction").getBool
  let targetNested ← (jsonAt param "targetNested").getBool
  let doCGRAMapping ← (jsonAt param "doCGRAMapping").getBool
  let isStaticElasticCGRA ← (jsonAt param "isStaticElasticCGRA").getBool
  let isTrimmedDemo ← (jsonAt param "isTrimmedDemo").getBool
  let ctrlMemConstraint ← (jsonAt param "ctrlMemConstraint").getInt
  let bypassConstraint ← (jsonAt param "bypassConstraint").getInt
  let regConstraint ← (jsonAt param "regConstraint").getInt
  let precisionAware ← (jsonAt param "precisionAware").getBool
  let vectorizationMode ← (jsonAt param "vectorizationMode").getString
  let heuristicMapping ← (jsonAt param "heuristicMapping").getBool
  let parameterizableCGRA ← (jsonAt param "parameterizableCGRA").getBool
  pure { p with
    rows := rows
    columns := columns
    targetEntireFunction := targetEntireFunction
    targetNested := targetNested
    doCGRAMapping := doCGRAMapping
    isStaticElasticCGRA := isStaticElasticCGRA
    isTrimmedDemo := isTrimmedDemo
    ctrlMemConstraint := ctrlMemConstraint
    bypassConstraint := bypassConstraint
    regConstraint := regConstraint
    precisionAware := precisionAware
    vectorizationMode := vectorizationMode
    heuristicMapping := heuristicMapping
    parameterizableCGRA := parameterizableCGRA }

/-- The pattern `if (param.find(key) != param.end()) x = param[key];` for a
boolean `x` with current value `cur`. -/
def optionalBool (param : StrMap Json) (key : String) (cur : Bool) : Except Exn Bool :=
  match mapFind param key with
  | none => .ok cur
  | some v => v.getBool

/-- The pattern `if (param.find(key) != param.end()) x = param[key];` for an
`int` `x` with current value `cur`. -/
def optionalInt (param : StrMap Json) (key : String) (cur : Int) : Except Exn Int :=
  match mapFind param key with
  | none => .ok cur
  | some v => v.getInt

/-- Lines 247-282: the parameters assigned only when their key is present. The
key looked up for `vectorFactorForIdiv` is the literal of the source, which
ends in a space. The `assert` on `multiCycleStrategy` is taken as enabled. -/
def assignOptional (param : StrMap Json) (p : Params) : Except Exn Params := do
  let incrementalMapping ← optionalBool param "incrementalMapping" p.incrementalMapping
  let supportDVFS ← optionalBool param "supportDVFS" p.supportDVFS
  let DVFSAwareMapping ← optionalBool param "DVFSAwareMapping" p.DVFSAwareMapping
  let DVFSIslandDim ← optionalInt param "DVFSIslandDim" p.DVFSIslandDim
  let enablePowerGating ← optionalBool param "enablePowerGating" p.enablePowerGating
  let enableExpandableMapping ← optionalBool param "expandableMapping" p.enableExpandableMapping
  let vectorFactorForIdiv ← optionalInt param "vectorFactorForIdiv " p.vectorFactorForIdiv
  let testing_opcode_offset ←
    match mapFind param "testingOpcodeOffset" with
    | none => pure p.testing_opcode_offset
    | some v => do
      let x ← v.getInt
      pure (some x)
  let multiCycleStrategy ←
    match mapFind param "multiCycleStrategy" with
    | none => pure p.multiCycleStrategy
    | some v => do
      let s ← v.getString
      if s = "exclusive" ∨ s = "distributed" ∨ s = "inclusive" then pure s
      else throw Exn.assertion
  pure { p with
    incrementalMapping := incrementalMapping
    supportDVFS := supportDVFS
    DVFSAwareMapping := DVFSAwareMapping
    DVFSIslandDim := DVFSIslandDim
    enablePowerGating := enablePowerGating
    enableExpandableMapping := enableExpandableMapping
    vectorFactorForIdiv := vectorFactorForIdiv
    testing_opcode_offset := testing_opcode_offset
    multiCycleStrategy := multiCycleStrategy }

/-- The loop `for (auto& opt : items) (*m)[opt.key()] = opt.value();` on a map. -/
def assignAll {V : Type} (m : StrMap V) (items : List (String × V)) : StrMap V :=
  items.foldl (fun acc kv => mapSet acc kv.1 kv.2) m

/-- Lines 284-320: the tables `execLatency`, `pipelinedOpt`, `fusionStrategy`,
`additionalFunc` and `fusionPattern`. -/
def assignTables (param : StrMap Json) (p : Params) : Except Exn Params := do
  let optLatency ← convertItems Json.getInt (jsonAt param "optLatency").items
  let pipeOpt ← (jsonAt param "optPipelined").elements Json.getString
  let fusion ← convertItems Json.getString (jsonAt param "fusionStrategy").items
  let addFunc ← convertItems (Json.elements Json.getInt) (jsonAt param "additionalFunc").items
  let pattern ← convertItems (Json.elements Json.getString) (jsonAt param "fusionPattern").items
  pure { p with
    execLatency := assignAll p.execLatency optLatency
    pipelinedOpt := p.pipelinedOpt ++ pipeOpt
    fusionStrategy := p.fusionStrategy ++ fusion.map Prod.snd
    additionalFunc := assignAll p.additionalFunc addFunc
    fusionPattern := assignAll p.fusionPattern pattern }

/-- The body of the `else` branch of `runMapperImpl` after the key check
(lines 225-320), started from the parameters `p`. -/
def assignParams (param : StrMap Json) (p : Params) : Except Exn Params := do
  let p ← assignTarget param p
  let p ← assignRequired param p
  let p ← assignOptional param p
  assignTables param p

/-! ## The driver `runMapperImpl` -/

/-- The arguments of the constructor call `new DFG(...)`. -/
structure DFGArgs where
  fname : String
  targetLoops : List Loop
  targetEntireFunction : Bool
  precisionAware : Bool
  fusionStrategy : List String
  execLatency : StrMap Int
  pipelinedOpt : List String
  fusionPattern : StrMap (List String)
  supportDVFS : Bool
  DVFSAwareMapping : Bool
  vectorFactorForIdiv : Int
  enableDistributed : Bool

/-- The arguments of the constructor call `new CGRA(...)`. -/
structure CGRAArgs where
  rows : Int
  columns : Int
  vectorizationMode : String
  fusionStrategy : List String
  parameterizableCGRA : Bool
  additionalFunc : StrMap (List Int)
  supportDVFS : Bool
  DVFSIslandDim : Int
  enableMultipleOps : Bool

/-- The classes behind `Mapper.h`, which `runMapperImpl` calls: what their
constructors build, what their mutating methods leave behind, and what their
queries and scheduling routines return. -/
structure World (Node Tile : Type) where
  canSupport : Tile → Node → Bool
  getOpcodeName : Node → String
  newDFG : DFGArgs → DFG Node
  reorderInCriticalFirst : DFG Node → DFG Node
  initDVFSLatencyMultiple : DFG Node → Int → Int → Int → DFG Node
  newCGRA : CGRAArgs → CGRA Tile
  setRegConstraint : CGRA Tile → Int → CGRA Tile
  setCtrlMemConstraint : CGRA Tile → Int → CGRA Tile
  setBypassConstraint : CGRA Tile → Int → CGRA Tile
  getFUCount : CGRA Tile → Int
  getResMII : DFG Node → CGRA Tile → Int
  getRecMII : DFG Node → Int
  heuristicMap : CGRA Tile → DFG Node → Int → Bool → Int
  incrementalMap : CGRA Tile → DFG Node → Int → Int
  exhaustiveMap : CGRA Tile → DFG Node → Int → Bool → Int
  getExpandableII : DFG Node → Int → Int

/-- What `runMapperImpl` prints and calls, in program order. -/
inductive Event where
  /-- The warning that `param.json` is missing and defaults are used. -/
  | defaultParamsWarning
  /-- The diagnostic `Please include related parameter in param.json:` with the
  key of the exception. -/
  | missingParam (key : String)
  /-- The message that the function is not in the target list. -/
  | notInTargetList (fname : String)
  /-- The message that the function is one of the targets. -/
  | isTarget (fname : String)
  /-- The call of `getTargetLoopsImpl`. -/
  | getTargetLoops
  /-- The call `new DFG(...)`. -/
  | newDFG (args : DFGArgs)
  /-- The call `dfg->reorderInCriticalFirst()`. -/
  | reorderInCriticalFirst
  /-- The call `new CGRA(...)`. -/
  | newCGRA (args : CGRAArgs)
  /-- The call `cgra->setRegConstraint(n)`. -/
  | setRegConstraint (n : Int)
  /-- The call `cgra->setCtrlMemConstraint(n)`. -/
  | setCtrlMemConstraint (n : Int)
  /-- The call `cgra->setBypassConstraint(n)`. -/
  | setBypassConstraint (n : Int)
  /-- The call `new Mapper(DVFSAwareMapping)`. -/
  | newMapper (DVFSAwareMapping : Bool)
  /-- The call `dfg->showOpcodeDistribution()`. -/
  | showOpcodeDistribution
  /-- The call `dfg->generateDot(t_F, isTrimmedDemo)`. -/
  | generateDot (isTrimmedDemo : Bool)
  /-- The call `dfg->generateJSON()`. -/
  | generateDFGJSON
  /-- The call `mapper->getResMII(dfg, cgra)` and the value it prints. -/
  | getResMII (value : Int)
  /-- The call `mapper->getRecMII(dfg)` and the value it prints. -/
  | getRecMII (value : Int)
  /-- The call `dfg->initDVFSLatencyMultiple(II, DVFSIslandDim, getFUCount())`. -/
  | initDVFSLatencyMultiple (II : Int) (DVFSIslandDim : Int) (fuCount : Int)
  /-- The evaluation of `canMapImpl(cgra, dfg)`, with the names it prints. -/
  | canMap (result : Bool) (missing : List String)
  /-- The message `[Mapping Fail]`. -/
  | mappingFail
  /-- The call `mapper->incrementalMap(cgra, dfg, II)`. -/
  | incrementalMap (II : Int)
  /-- The call `mapper->heuristicMap(cgra, dfg, II, isStaticElasticCGRA)`. -/
  | heuristicMap (II : Int) (isStaticElasticCGRA : Bool)
  /-- The call `mapper->exhaustiveMap(cgra, dfg, II, isStaticElasticCGRA)`. -/
  | exhaustiveMap (II : Int) (isStaticElasticCGRA : Bool)
  /-- The message `[fail]`. -/
  | fail
  /-- The call `mapper->showSchedule(...)`. -/
  | showSchedule (II : Int) (isStaticElasticCGRA : Bool) (parameterizableCGRA : Bool)
  /-- The message `[Mapping Success]`. -/
  | mappingSuccess
  /-- The call `mapper->getExpandableII(dfg, II)` and the value it prints. -/
  | getExpandableII (II : Int) (value : Int)
  /-- The call `mapper->showUtilization(...)`. -/
  | showUtilization (II : Int) (isStaticElasticCGRA : Bool) (enablePowerGating : Bool)
  /-- The call `mapper->generateJSON(cgra, dfg, II, isStaticElasticCGRA)`. -/
  | generateJSON (II : Int) (isStaticElasticCGRA : Bool)
  /-- The call `mapper->generateJSON4IncrementalMap(cgra, dfg)`. -/
  | generateJSON4IncrementalMap

/-- How a run of the pass ends. -/
inductive Outcome where
  /-- The function `runMapperImpl` returns the given value. -/
  | returned (value : Bool)
  /-- The call `exit(code)` ends the process. -/
  | exited (code : Int)
  /-- An exception that nothing catches, or a failed assertion, ends the process. -/
  | uncaught (e : Exn)
  deriving DecidableEq, Repr

/-- A run of the pass: the events in program order and the way it ends. -/
structure Run where
  trace : List Event
  outcome : Outcome

/-- The state of `runMapperImpl` when it reaches `if (!doCGRAMapping)`: the
graph, the array and the initial value of `II`. -/
structure Analysed (Node Tile : Type) where
  dfg : DFG Node
  cgra : CGRA Tile
  II : Int

/-- The arguments that `runMapperImpl` passes to `new DFG(...)`. -/
def dfgArgs (fname : String) (targetLoops : List Loop) (p : Params) : DFGArgs :=
  { fname := fname
    targetLoops := targetLoops
    targetEntireFunction := p.targetEntireFunction
    precisionAware := p.precisionAware
    fusionStrategy := p.fusionStrategy
    execLatency := p.execLatency
    pipelinedOpt := p.pipelinedOpt
    fusionPattern := p.fusionPattern
    supportDVFS := p.supportDVFS
    DVFSAwareMapping := p.DVFSAwareMapping
    vectorFactorForIdiv := p.vectorFactorForIdiv
    enableDistributed := decide (p.multiCycleStrategy = "distributed") }

/-- The arguments that `runMapperImpl` passes to `new CGRA(...)`. -/
def cgraArgs (p : Params) : CGRAArgs :=
  { rows := p.rows
    columns := p.columns
    vectorizationMode := p.vectorizationMode
    fusionStrategy := p.fusionStrategy
    parameterizableCGRA := p.parameterizableCGRA
    additionalFunc := p.additionalFunc
    supportDVFS := p.supportDVFS
    DVFSIslandDim := p.DVFSIslandDim
    enableMultipleOps := decide (p.multiCycleStrategy = "inclusive") }

/-- The graph after `new DFG(...)` and the optional `reorderInCriticalFirst`. -/
def builtDFG {Node Tile : Type} (W : World Node Tile) (fname : String)
    (targetLoops : List Loop) (p : Params) : DFG Node :=
  let dfg := W.newDFG (dfgArgs fname targetLoops p)
  if p.enableExpandableMapping then W.reorderInCriticalFirst dfg else dfg

/-- The array after `new CGRA(...)` and the three `set...Constraint` calls. -/
def builtCGRA {Node Tile : Type} (W : World Node Tile) (p : Params) : CGRA Tile :=
  W.setBypassConstraint
    (W.setCtrlMemConstraint (W.setRegConstraint (W.newCGRA (cgraArgs p)) p.regConstraint)
      p.ctrlMemConstraint)
    p.bypassConstraint

/-- The statements `int II = ResMII; if (II < RecMII) II = RecMII;`. -/
def initialII (ResMII RecMII : Int) : Int :=
  if ResMII < RecMII then RecMII else ResMII

/-- Lines 336-381 of `runMapperImpl`: the state they leave. -/
def analyse {Node Tile : Type} (W : World Node Tile) (fname : String)
    (targetLoops : List Loop) (p : Params) : Analysed Node Tile :=
  let dfg := builtDFG W fname targetLoops p
  let cgra := builtCGRA W p
  let II := initialII (W.getResMII dfg cgra) (W.getRecMII dfg)
  { dfg := if p.supportDVFS then
        W.initDVFSLatencyMultiple dfg II p.DVFSIslandDim (W.getFUCount cgra)
      else dfg
    cgra := cgra
    II := II }

/-- Lines 336-381 of `runMapperImpl`: the events, in order. -/
def analyseEvents {Node Tile : Type} (W : World Node Tile) (fname : String)
    (targetLoops : List Loop) (p : Params) : List Event :=
  let dfg := builtDFG W fname targetLoops p
  let cgra := builtCGRA W p
  let II := initialII (W.getResMII dfg cgra) (W.getRecMII dfg)
  [Event.newDFG (dfgArgs fname targetLoops p)]
    ++ (if p.enableExpandableMapping then [Event.reorderInCriticalFirst] else [])
    ++ [Event.newCGRA (cgraArgs p),
        Event.setRegConstraint p.regConstraint,
        Event.setCtrlMemConstraint p.ctrlMemConstraint,
        Event.setBypassConstraint p.bypassConstraint,
        Event.newMapper p.DVFSAwareMapping,
        Event.showOpcodeDistribution,
        Event.generateDot p.isTrimmedDemo,
        Event.generateDFGJSON,
        Event.getResMII (W.getResMII dfg cgra),
        Event.getRecMII (W.getRecMII dfg)]
    ++ (if p.supportDVFS then
          [Event.initDVFSLatencyMultiple II p.DVFSIslandDim (W.getFUCount cgra)]
        else [])

/-- Lines 393-425 of `runMapperImpl`: the scheduling calls made from the state
`a`, and the value of `II` after them. -/
def schedule {Node Tile : Type} (W : World Node Tile) (p : Params)
    (a : Analysed Node Tile) : List Event × Int :=
  let success := false
  let r1 : List Event × Int :=
    if !p.isStaticElasticCGRA then
      if p.heuristicMapping then
        if p.incrementalMapping then
          ([Event.incrementalMap a.II], W.incrementalMap a.cgra a.dfg a.II)
        else
          ([Event.heuristicMap a.II p.isStaticElasticCGRA],
            W.heuristicMap a.cgra a.dfg a.II p.isStaticElasticCGRA)
      else
        ([Event.exhaustiveMap a.II p.isStaticElasticCGRA],
          W.exhaustiveMap a.cgra a.dfg a.II p.isStaticElasticCGRA)
    else ([], a.II)
  if p.isStaticElasticCGRA && !success then
    (r1.1 ++ [Event.exhaustiveMap r1.2 p.isStaticElasticCGRA],
      W.exhaustiveMap a.cgra a.dfg r1.2 p.isStaticElasticCGRA)
  else r1

/-- Lines 427-449 of `runMapperImpl`: the report for the final value of `II`. -/
def report {Node Tile : Type} (W : World Node Tile) (p : Params)
    (a : Analysed Node Tile) (II : Int) : List Event :=
  if II = -1 then [Event.fail]
  else
    [Event.showSchedule II p.isStaticElasticCGRA p.parameterizableCGRA, Event.mappingSuccess]
      ++ (if p.enableExpandableMapping then
            [Event.getExpandableII II (W.getExpandableII a.dfg II)]
          else [])
      ++ [Event.showUtilization II p.isStaticElasticCGRA p.enablePowerGating,
          Event.generateJSON II p.isStaticElasticCGRA]
      ++ (if !p.incrementalMapping then [Event.generateJSON4IncrementalMap] else [])

/-- Lines 383-455 of `runMapperImpl`, from the state `a`. -/
def mapStage {Node Tile : Type} (W : World Node Tile) (p : Params)
    (a : Analysed Node Tile) : Run :=
  if !p.doCGRAMapping then ⟨[], .returned false⟩
  else
    let cm := canMapImpl W.canSupport W.getOpcodeName a.cgra a.dfg
    if !cm.1 then ⟨[Event.canMap cm.1 cm.2, Event.mappingFail], .returned false⟩
    else
      let s := schedule W p a
      ⟨[Event.canMap cm.1 cm.2] ++ s.1 ++ report W p a s.2, .returned false⟩

/-- Lines 323-455 of `runMapperImpl`: the pass on the function named `fname`
with top-level loops `LI`, under the parameters `p`. -/
def runConfigured {Node Tile : Type} (W : World Node Tile) (fname : String)
    (LI : List Loop) (p : Params) : Run :=
  match mapFind p.functionWithLoop fname with
  | none => ⟨[Event.notInTargetList fname], .returned false⟩
  | some _ =>
    match getTargetLoopsImpl fname p.functionWithLoop p.targetNested LI with
    | .error e => ⟨[Event.isTarget fname, Event.getTargetLoops], .uncaught e⟩
    | .ok (targetLoops, _) =>
      let r := mapStage W p (analyse W fname targetLoops p)
      ⟨[Event.isTarget fname, Event.getTargetLoops]
          ++ analyseEvents W fname targetLoops p ++ r.trace, r.outcome⟩

/-- Lines 143-321 of `runMapperImpl`: the parameters in force, or the way the
run ends while loading them. `file` is the parsed content of `./param.json`, a
JSON object, and `none` when the file cannot be opened. -/
def loadConfiguration (file : Option (StrMap Json)) : List Event × Except Outcome Params :=
  match file with
  | none => ([Event.defaultParamsWarning], .ok initialParams)
  | some param =>
    match checkParamKeys param with
    | some k => ([Event.missingParam k], .error (.exited 0))
    | none =>
      match assignParams param initialParams with
      | .error e => ([], .error (.uncaught e))
      | .ok p => ([], .ok p)

/-- The function `runMapperImpl` on the function named `fname` with top-level
loops `LI`; `file` is the parsed content of `./param.json`, `none` when the
file cannot be opened. -/
def runMapperImpl {Node Tile : Type} (W : World Node Tile) (fname : String)
    (LI : List Loop) (file : Option (StrMap Json)) : Run :=
  match loadConfiguration file with
  | (events, .error o) => ⟨events, o⟩
  | (events, .ok p) =>
    let r := runConfigured W fname LI p
    ⟨events ++ r.trace, r.outcome⟩

/-! ## Reference definitions and sample inputs -/

/-- The registry that `addDefaultKernels` builds from an empty one, written out:
the 34 distinct names in key order. -/
def defaultRegistryTable : Registry :=
  [("BF_encrypt", [0]), ("_Z12ARENA_kerneliii", [0]), ("_Z4spmvPiii", [0]), ("_Z4spmviiPiS_S_", [0]),
  ("_Z6kernelP7RGBType", [0]), ("_Z6kernelP7RGBTypeP4Vect", [0]), ("_Z6kernelP7RGBTypePi", [0]),
  ("_Z6kernelPPdPiS_iS_", [0]), ("_Z6kernelPPdPii", [0]), ("_Z6kernelPPdPiiS0_", [0]), ("_Z6kernelPPdidPi", [0]),
  ("_Z6kernelPPii", [0]), ("_Z6kernelPfPi", [0]), ("_Z6kernelPfS_", [0]), ("_Z6kernelPfS_S_", [0]),
  ("_Z6kernelPfS_f", [0]), ("_Z6kernelPfS_ff", [0]), ("_Z6kernelPfS_if", [0]), ("_Z6kernelPiS_", [0]),
  ("_Z6kernelPiS_S_", [0]), ("_Z6kernelPiS_i", [0]), ("_Z6kernelPiS_ii", [0]), ("_Z6kerneli", [0]),
  ("_Z6kerneliPPiS_S_S_", [0]), ("_Z9LUPSolve0PPdPiS_iS_", [0]), ("adpcm_coder", [0]), ("adpcm_decoder", [0]),
  ("fft", [0]), ("fir", [0]), ("kernel", [0]), ("kernel_gemm", [0]), ("latnrm", [1]), ("spmv", [0]),
  ("susan_smoothing", [0])]


/-- A sample tile model: a tile is the list of opcode names it supports. -/
def sampleCanSupport (fu : List String) (node : String) : Bool := fu.contains node

/-- A 2 x 2 array whose only tile, at (1, 1), supports `add` and `mul`. -/
def sampleCGRA : CGRA (List String) :=
  { rows := 2, columns := 2, nodes := fun i j => if i = 1 ∧ j = 1 then some ["add", "mul"] else none }

/-- An array with no rows and three columns. -/
def zeroRowCGRA : CGRA (List String) :=
  { rows := 0, columns := 3, nodes := fun _ _ => some ["add", "mul"] }

/-- One step of the descent: the first subloop, or the loop itself when it has none. -/
def firstSubLoop (l : Loop) : Loop :=
  match l.getSubLoops with
  | [] => l
  | s :: _ => s

/-- The number of steps from a loop down its first subloops to a loop without subloops. -/
def firstSubLoopDepth : Loop → Nat
  | .mk _ [] => 0
  | .mk _ (s :: _) => firstSubLoopDepth s + 1

/-- Reference definition of `sel`: the identity when `targetNested` is set;
otherwise the loop is replaced by its first subloop, repeatedly, until a loop
without subloops is reached. -/
def refSel (targetNested : Bool) (l : Loop) : Loop :=
  if targetNested then l else firstSubLoop^[firstSubLoopDepth l] l

/-- Reference definition of the selected loops: in the order of the id list,
`sel (top[id])` for each id with `0 ≤ id < top.length`. -/
def refTargetLoops (targetNested : Bool) (ids : List Int) (top : List Loop) : List Loop :=
  ids.filterMap (fun (id : Int) =>
    if 0 ≤ id ∧ id < (top.length : Int) then (top.get? id.toNat).map (refSel targetNested) else none)

/-- A forest of two top-level loops: loop 10 contains loop 11, which contains
loops 12 and 13; loop 20 has no subloops. -/
def sampleLoops : List Loop :=
  [.mk 10 [.mk 11 [.mk 12 [], .mk 13 []]], .mk 20 []]

/-- The constructor name of an event. -/
def Event.tag : Event → String
  | .defaultParamsWarning => "defaultParamsWarning"
  | .missingParam _ => "missingParam"
  | .notInTargetList _ => "notInTargetList"
  | .isTarget _ => "isTarget"
  | .getTargetLoops => "getTargetLoops"
  | .newDFG _ => "newDFG"
  | .reorderInCriticalFirst => "reorderInCriticalFirst"
  | .newCGRA _ => "newCGRA"
  | .setRegConstraint _ => "setRegConstraint"
  | .setCtrlMemConstraint _ => "setCtrlMemConstraint"
  | .setBypassConstraint _ => "setBypassConstraint"
  | .newMapper _ => "newMapper"
  | .showOpcodeDistribution => "showOpcodeDistribution"
  | .generateDot _ => "generateDot"
  | .generateDFGJSON => "generateDFGJSON"
  | .getResMII _ => "getResMII"
  | .getRecMII _ => "getRecMII"
  | .initDVFSLatencyMultiple _ _ _ => "initDVFSLatencyMultiple"
  | .canMap _ _ => "canMap"
  | .mappingFail => "mappingFail"
  | .incrementalMap _ => "incrementalMap"
  | .heuristicMap _ _ => "heuristicMap"
  | .exhaustiveMap _ _ => "exhaustiveMap"
  | .fail => "fail"
  | .showSchedule _ _ _ => "showSchedule"
  | .mappingSuccess => "mappingSuccess"
  | .getExpandableII _ _ => "getExpandableII"
  | .showUtilization _ _ _ => "showUtilization"
  | .generateJSON _ _ => "generateJSON"
  | .generateJSON4IncrementalMap => "generateJSON4IncrementalMap"

/-- The split factor for integer division in the arguments of a `new DFG(...)`
call; `none` for any other event. -/
def Event.idivFactor : Event → Option Int
  | .newDFG args => some args.vectorFactorForIdiv
  | _ => none

/-- A sample world: nodes are opcode names, every tile supports `add` and `mul`,
the DFG has the two nodes `add` and `mul`, `ResMII` is 1, `RecMII` is 2, and
each scheduling routine succeeds at the `II` it is given. -/
def sampleWorld : World String (List String) :=
  { canSupport := sampleCanSupport
    getOpcodeName := id
    newDFG := fun _ => ⟨["add", "mul"]⟩
    reorderInCriticalFirst := fun d => d
    initDVFSLatencyMultiple := fun d _ _ _ => d
    newCGRA := fun a => { rows := a.rows, columns := a.columns, nodes := fun _ _ => some ["add", "mul"] }
    setRegConstraint := fun c _ => c
    setCtrlMemConstraint := fun c _ => c
    setBypassConstraint := fun c _ => c
    getFUCount := fun c => c.rows * c.columns
    getResMII := fun _ _ => 1
    getRecMII := fun _ => 2
    heuristicMap := fun _ _ II _ => II
    incrementalMap := fun _ _ II => II
    exhaustiveMap := fun _ _ II _ => II
    getExpandableII := fun _ II => II }

/-- A configuration with only the keys `row`, `column`, `kernel` and
`targetLoopsID`. -/
def fourKeyConfig : StrMap Json :=
  [ ("column", .num 4), ("kernel", .str "kernel"), ("row", .num 4),
    ("targetLoopsID", .arr [.num 0]) ]

/-- A configuration with the seventeen keys of `paramKeys`, for the kernel
`conv` and the loop ids 2 and 0. -/
def fullConfig : StrMap Json :=
  [ ("bypassConstraint", .num 4), ("column", .num 4), ("ctrlMemConstraint", .num 10),
    ("doCGRAMapping", .bool true), ("fusionStrategy", .arr []), ("heuristicMapping", .bool true),
    ("isStaticElasticCGRA", .bool false), ("isTrimmedDemo", .bool true), ("kernel", .str "conv"),
    ("parameterizableCGRA", .bool false), ("precisionAware", .bool false),
    ("regConstraint", .num 8), ("row", .num 4), ("targetFunction", .bool false),
    ("targetLoopsID", .arr [.num 2, .num 0]), ("targetNested", .bool false),
    ("vectorizationMode", .str "all") ]

/-- The configuration `fullConfig` with the key `vectorFactorForIdiv` set to 4. -/
def idivConfig : StrMap Json :=
  mapSet fullConfig "vectorFactorForIdiv" (.num 4)

/-- The configuration `fullConfig` with the key `incrementalMapping` set to true. -/
def incrementalConfig : StrMap Json :=
  mapSet fullConfig "incrementalMapping" (.bool true)

/-- The parameters that loading `fullConfig` leaves. -/
def fullParams : Params :=
  match assignParams fullConfig initialParams with
  | .ok p => p
  | .error _ => initialParams

/-- The scheduling routines of `Mapper`. -/
inductive Scheduler where
  | heuristicMap
  | incrementalMap
  | exhaustiveMap
  deriving DecidableEq, Repr

/-- The routine and the `II` argument of a call of a scheduling routine; `none`
for any other event. -/
def Event.schedulingCall : Event → Option (Scheduler × Int)
  | .incrementalMap II => some (.incrementalMap, II)
  | .heuristicMap II _ => some (.heuristicMap, II)
  | .exhaustiveMap II _ => some (.exhaustiveMap, II)
  | _ => none

/-- Whether an event is a call of `heuristicMap`, `incrementalMap`,
`exhaustiveMap`, `showSchedule`, the schedule's `generateJSON` or
`generateJSON4IncrementalMap`. -/
def Event.isMappingCall : Event → Bool
  | .incrementalMap _ => true
  | .heuristicMap _ _ => true
  | .exhaustiveMap _ _ => true
  | .showSchedule _ _ _ => true
  | .generateJSON _ _ => true
  | .generateJSON4IncrementalMap => true
  | _ => false

/-- A DFG with an integer and a floating-point division next to an addition. -/
def divDFG : DFG String := ⟨["sdiv", "add", "fdiv", "sdiv"]⟩

/-- The nodes of `divDFG` in another order. -/
def divDFGReordered : DFG String := ⟨["fdiv", "sdiv", "sdiv", "add"]⟩

/-- The sample world with a DFG that holds a node no tile supports. -/
def divWorld : World String (List String) :=
  { sampleWorld with newDFG := fun _ => divDFG }

/-- The configuration `fullConfig` with `doCGRAMapping` set to false. -/
def analysisOnlyConfig : StrMap Json :=
  mapSet fullConfig "doCGRAMapping" (.bool false)

/-- The parameters that loading `analysisOnlyConfig` leaves. -/
def analysisOnlyParams : Params :=
  match assignParams analysisOnlyConfig initialParams with
  | .ok p => p
  | .error _ => initialParams

/-! # Properties -/

/-! ## Strings and maps -/

theorem charsLt_irrefl (a : List Char) : charsLt a a = false := by
  induction a with
  | nil => rfl
  | cons c cs ih => simp [charsLt, ih]

theorem char_eq_of_toNat_eq {a b : Char} (h : a.toNat = b.toNat) : a = b := by
  apply Char.ext
  apply UInt32.ext
  simpa [Char.toNat, UInt32.toNat] using h

theorem charsLt_eq_of_not_lt : ∀ (a b : List Char), charsLt a b = false → charsLt b a = false → a = b
  | [], [], _, _ => rfl
  | [], _ :: _, h, _ => by simp [charsLt] at h
  | _ :: _, [], _, h => by simp [charsLt] at h
  | a :: as, b :: bs, h1, h2 => by
    simp only [charsLt] at h1 h2
    by_cases hab : a.toNat < b.toNat
    · simp [hab] at h1
    · by_cases hba : b.toNat < a.toNat
      · simp [hba] at h2
      · simp only [hab, hba, if_false] at h1 h2
        have hc : a = b := char_eq_of_toNat_eq (by omega)
        rw [hc, charsLt_eq_of_not_lt as bs h1 h2]

theorem strLt_irrefl (a : String) : strLt a a = false := charsLt_irrefl a.data

theorem strEquiv_iff (a b : String) : (strLt a b || strLt b a) = false ↔ a = b := by
  constructor
  · intro h
    simp only [Bool.or_eq_false_iff] at h
    have := charsLt_eq_of_not_lt a.data b.data h.1 h.2
    exact String.ext this
  · rintro rfl
    simp [strLt_irrefl]

theorem mapFind_cons {V : Type} (k' : String) (v' : V) (rest : StrMap V) (k : String) :
    mapFind ((k', v') :: rest) k = if k = k' then some v' else mapFind rest k := by
  simp only [mapFind]
  by_cases h : k = k'
  · subst h; simp [strLt_irrefl]
  · have : (strLt k k' || strLt k' k) = true := by
      cases hb : (strLt k k' || strLt k' k)
      · exact absurd ((strEquiv_iff k k').1 hb) h
      · rfl
    simp [this, h]


theorem strEquiv_ne {a b : String} (h : a ≠ b) : (strLt a b || strLt b a) = true := by
  cases hb : (strLt a b || strLt b a)
  · exact absurd ((strEquiv_iff a b).1 hb) h
  · rfl

theorem strLt_ne {a b : String} (h : strLt a b = true) : a ≠ b := by
  rintro rfl
  simp [strLt_irrefl] at h

theorem mapFind_mapSet {V : Type} (m : StrMap V) (k : String) (v : V) (q : String) :
    mapFind (mapSet m k v) q = if q = k then some v else mapFind m q := by
  induction m with
  | nil =>
    show mapFind [(k, v)] q = _
    rw [mapFind_cons]
  | cons e rest ih =>
    obtain ⟨k', v'⟩ := e
    simp only [mapSet]
    by_cases h1 : strLt k k' = true
    · rw [if_pos h1, mapFind_cons]
    · by_cases h2 : strLt k' k = true
      · rw [if_neg h1, if_pos h2, mapFind_cons, mapFind_cons, ih]
        have hne : k' ≠ k := strLt_ne h2
        by_cases hq : q = k'
        · subst hq; simp [hne]
        · simp [hq]
      · have hk : k = k' := (strEquiv_iff k k').1 (by simp [h1, h2])
        subst hk
        rw [if_neg h1, if_neg h2, mapFind_cons, mapFind_cons]
        by_cases hq : q = k <;> simp [hq]

theorem mapFind_mapPushBack {V : Type} (m : StrMap (List V)) (k : String) (x : V) (q : String) :
    mapFind (mapPushBack m k x) q
      = if q = k then (mapFind m q).map (fun l => l ++ [x]) else mapFind m q := by
  induction m with
  | nil => simp [mapPushBack, mapFind]
  | cons e rest ih =>
    obtain ⟨k', l⟩ := e
    simp only [mapPushBack]
    by_cases hk : k = k'
    · subst hk
      rw [if_neg (by simp [strLt_irrefl]), mapFind_cons, mapFind_cons]
      by_cases hq : q = k <;> simp [hq]
    · rw [if_pos (strEquiv_ne hk), mapFind_cons, mapFind_cons, ih]
      by_cases hq : q = k'
      · subst hq
        have : q ≠ k := fun h => hk h.symm
        simp [this]
      · simp [hq]

theorem mapFind_mem {V : Type} (m : StrMap V) (k : String) (v : V)
    (h : mapFind m k = some v) : (k, v) ∈ m := by
  induction m with
  | nil => simp [mapFind] at h
  | cons e rest ih =>
    obtain ⟨k', v'⟩ := e
    rw [mapFind_cons] at h
    by_cases hk : k = k'
    · subst hk
      simp at h
      simp [h]
    · simp only [hk, if_false] at h
      exact List.mem_cons_of_mem _ (ih h)

/-! ## The kernel registry -/

/-- The registry built from an empty one is the written-out table. -/
theorem addDefaultKernels_nil : addDefaultKernels [] = defaultRegistryTable := by decide

/-- Every entry of the table is `[0]`, except `[1]` for `latnrm`. -/
theorem defaultRegistryTable_ids :
    ∀ p ∈ defaultRegistryTable, p.2 = if p.1 = "latnrm" then [1] else [0] := by decide

/-- C6. After `addDefaultKernels` runs on an empty registry, every registered
name maps to a one-element list, `[1]` for `latnrm` and `[0]` for every other
name; the names `kernel`, `_Z6kernelPfS_`, `fir`, `spmv`, `fft`, `BF_encrypt`,
`adpcm_coder` and `kernel_gemm` are registered; `_Z6kernelPfS_`, which the
function assigns twice, ends with `[0]`. -/
theorem addDefaultKernels_registry :
    (∀ name ids, mapFind (addDefaultKernels []) name = some ids →
        ids = if name = "latnrm" then [1] else [0])
    ∧ mapFind (addDefaultKernels []) "latnrm" = some [1]
    ∧ mapFind (addDefaultKernels []) "kernel" = some [0]
    ∧ mapFind (addDefaultKernels []) "_Z6kernelPfS_" = some [0]
    ∧ mapFind (addDefaultKernels []) "fir" = some [0]
    ∧ mapFind (addDefaultKernels []) "spmv" = some [0]
    ∧ mapFind (addDefaultKernels []) "fft" = some [0]
    ∧ mapFind (addDefaultKernels []) "BF_encrypt" = some [0]
    ∧ mapFind (addDefaultKernels []) "adpcm_coder" = some [0]
    ∧ mapFind (addDefaultKernels []) "kernel_gemm" = some [0]
    ∧ (defaultKernelList.filter (fun p => p.1 == "_Z6kernelPfS_")).length = 2 := by
  refine ⟨?_, by decide, by decide, by decide, by decide, by decide, by decide, by decide,
    by decide, by decide, by decide⟩
  intro name ids h
  rw [addDefaultKernels_nil] at h
  exact defaultRegistryTable_ids (name, ids) (mapFind_mem _ _ _ h)

/-- C6, instance: the entry of `susan_smoothing` in the registry built from an
empty one. -/
theorem addDefaultKernels_registry_witness :
    mapFind (addDefaultKernels []) "susan_smoothing" = some [0]
    ∧ [(0 : Int)] = if "susan_smoothing" = "latnrm" then [1] else [0] :=
  ⟨by decide, addDefaultKernels_registry.1 "susan_smoothing" [0] (by decide)⟩

/-! ## The early feasibility test -/

theorem scanColumns_eq_true {Node Tile : Type} (canSupport : Tile → Node → Bool)
    (t_cgra : CGRA Tile) (node : Node) (i : Nat) (n j : Nat) :
    scanColumns canSupport t_cgra node i n j = true ↔
      ∃ j', j ≤ j' ∧ j' < j + n ∧ ∃ fu, t_cgra.nodes i j' = some fu ∧ canSupport fu node = true := by
  induction n generalizing j with
  | zero =>
    simp only [scanColumns]
    constructor
    · intro h; cases h
    · rintro ⟨j', h1, h2, _⟩; omega
  | succ n ih =>
    simp only [scanColumns]
    constructor
    · intro h
      cases hfu : t_cgra.nodes i j with
      | none =>
        rw [hfu] at h
        obtain ⟨j', h1, h2, h3⟩ := (ih (j + 1)).1 h
        exact ⟨j', by omega, by omega, h3⟩
      | some fu =>
        rw [hfu] at h
        by_cases hs : canSupport fu node = true
        · exact ⟨j, le_refl _, by omega, fu, hfu, hs⟩
        · simp only [hs] at h
          obtain ⟨j', h1, h2, h3⟩ := (ih (j + 1)).1 h
          exact ⟨j', by omega, by omega, h3⟩
    · rintro ⟨j', h1, h2, fu, hfu, hs⟩
      by_cases hj : j' = j
      · subst hj
        rw [hfu]
        simp [hs]
      · have hrec : scanColumns canSupport t_cgra node i n (j + 1) = true :=
          (ih (j + 1)).2 ⟨j', by omega, by omega, fu, hfu, hs⟩
        cases hfu' : t_cgra.nodes i j with
        | none => simpa using hrec
        | some fu' =>
          by_cases hs' : canSupport fu' node = true
          · simp [hs']
          · simpa [hs'] using hrec

theorem scanRows_eq_true {Node Tile : Type} (canSupport : Tile → Node → Bool)
    (t_cgra : CGRA Tile) (node : Node) (n i : Nat) :
    scanRows canSupport t_cgra node n i = true ↔
      ∃ i' j', i ≤ i' ∧ i' < i + n ∧ j' < t_cgra.columns.toNat ∧
        ∃ fu, t_cgra.nodes i' j' = some fu ∧ canSupport fu node = true := by
  induction n generalizing i with
  | zero =>
    simp only [scanRows]
    constructor
    · intro h; cases h
    · rintro ⟨i', j', h1, h2, _⟩; omega
  | succ n ih =>
    simp only [scanRows]
    constructor
    · intro h
      by_cases hc : scanColumns canSupport t_cgra node i t_cgra.columns.toNat 0 = true
      · obtain ⟨j', _, h2, h3⟩ := (scanColumns_eq_true _ _ _ _ _ _).1 hc
        exact ⟨i, j', le_refl _, by omega, by omega, h3⟩
      · simp only [hc] at h
        obtain ⟨i', j', h1, h2, h3⟩ := (ih (i + 1)).1 h
        exact ⟨i', j', by omega, by omega, h3⟩
    · rintro ⟨i', j', h1, h2, h3, h4⟩
      by_cases hc : scanColumns canSupport t_cgra node i t_cgra.columns.toNat 0 = true
      · simp [hc]
      · have hi : i' ≠ i := by
          rintro rfl
          exact hc ((scanColumns_eq_true _ _ _ _ _ _).2 ⟨j', Nat.zero_le _, by omega, h4⟩)
        simp only [hc]
        exact (ih (i + 1)).2 ⟨i', j', by omega, by omega, h3, h4⟩

theorem nodeSupported_iff {Node Tile : Type} (canSupport : Tile → Node → Bool)
    (t_cgra : CGRA Tile) (node : Node) :
    nodeSupported canSupport t_cgra node = true ↔
      ∃ i j : Nat, (i : Int) < t_cgra.rows ∧ (j : Int) < t_cgra.columns ∧
        ∃ fu, t_cgra.nodes i j = some fu ∧ canSupport fu node = true := by
  unfold nodeSupported
  rw [scanRows_eq_true]
  constructor
  · rintro ⟨i, j, _, h2, h3, h4⟩
    exact ⟨i, j, by omega, by omega, h4⟩
  · rintro ⟨i, j, h1, h2, h3⟩
    exact ⟨i, j, Nat.zero_le _, by omega, by omega, h3⟩

theorem setInsert_ne_nil (s : List String) (x : String) : setInsert s x ≠ [] := by
  cases s with
  | nil => simp [setInsert]
  | cons y rest =>
    simp only [setInsert]
    split
    · simp
    · split <;> simp

theorem collectMissingFus_eq_nil {Node Tile : Type} (canSupport : Tile → Node → Bool)
    (getOpcodeName : Node → String) (t_cgra : CGRA Tile) (nodes : List Node)
    (missing_fus : List String) :
    collectMissingFus canSupport getOpcodeName t_cgra nodes missing_fus = [] ↔
      missing_fus = [] ∧ ∀ node ∈ nodes, nodeSupported canSupport t_cgra node = true := by
  induction nodes generalizing missing_fus with
  | nil => simp [collectMissingFus]
  | cons node rest ih =>
    simp only [collectMissingFus]
    by_cases hs : nodeSupported canSupport t_cgra node = true
    · simp [hs, ih]
    · simp [hs, ih, setInsert_ne_nil]

theorem canMapImpl_fst {Node Tile : Type} (canSupport : Tile → Node → Bool)
    (getOpcodeName : Node → String) (t_cgra : CGRA Tile) (t_dfg : DFG Node) :
    (canMapImpl canSupport getOpcodeName t_cgra t_dfg).1 = true ↔
      ∀ node ∈ t_dfg.nodes, nodeSupported canSupport t_cgra node = true := by
  unfold canMapImpl
  cases h : collectMissingFus canSupport getOpcodeName t_cgra t_dfg.nodes [] with
  | nil =>
    have := (collectMissingFus_eq_nil _ _ _ _ _).1 h
    simpa using this.2
  | cons x xs =>
    have hne : ¬ (collectMissingFus canSupport getOpcodeName t_cgra t_dfg.nodes [] = []) := by
      rw [h]; simp
    rw [collectMissingFus_eq_nil] at hne
    simpa using hne

/-- C1. `canMapImpl` returns true exactly when every node of the DFG is
supported by some present tile `(i, j)` with `i < rows` and `j < columns`; it
returns true for an empty DFG, and false for a non-empty DFG on a grid with
zero rows or zero columns. -/
theorem canMapImpl_true_iff {Node Tile : Type} (canSupport : Tile → Node → Bool)
    (getOpcodeName : Node → String) (t_cgra : CGRA Tile) (t_dfg : DFG Node) :
    ((canMapImpl canSupport getOpcodeName t_cgra t_dfg).1 = true ↔
      ∀ node ∈ t_dfg.nodes, ∃ i j : Nat, (i : Int) < t_cgra.rows ∧ (j : Int) < t_cgra.columns ∧
        ∃ fu, t_cgra.nodes i j = some fu ∧ canSupport fu node = true)
    ∧ (t_dfg.nodes = [] → (canMapImpl canSupport getOpcodeName t_cgra t_dfg).1 = true)
    ∧ (t_dfg.nodes ≠ [] → (t_cgra.rows = 0 ∨ t_cgra.columns = 0) →
        (canMapImpl canSupport getOpcodeName t_cgra t_dfg).1 = false) := by
  have main : ((canMapImpl canSupport getOpcodeName t_cgra t_dfg).1 = true ↔
      ∀ node ∈ t_dfg.nodes, ∃ i j : Nat, (i : Int) < t_cgra.rows ∧ (j : Int) < t_cgra.columns ∧
        ∃ fu, t_cgra.nodes i j = some fu ∧ canSupport fu node = true) := by
    rw [canMapImpl_fst]
    constructor
    · intro h node hn
      exact (nodeSupported_iff _ _ _).1 (h node hn)
    · intro h node hn
      exact (nodeSupported_iff _ _ _).2 (h node hn)
  refine ⟨main, ?_, ?_⟩
  · intro he
    rw [main, he]
    intro node hn
    cases hn
  · intro hne hz
    cases hn : t_dfg.nodes with
    | nil => exact absurd hn hne
    | cons node rest =>
      cases hr : (canMapImpl canSupport getOpcodeName t_cgra t_dfg).1 with
      | false => rfl
      | true =>
        obtain ⟨i, j, h1, h2, _⟩ := main.1 hr node (by rw [hn]; exact List.mem_cons_self _ _)
        omega


/-- C1, instance: a one-node DFG on an array without rows. -/
theorem canMapImpl_true_iff_witness :
    (⟨["add"]⟩ : DFG String).nodes ≠ [] ∧ (zeroRowCGRA.rows = 0 ∨ zeroRowCGRA.columns = 0)
    ∧ (canMapImpl sampleCanSupport id zeroRowCGRA ⟨["add"]⟩).1 = false :=
  ⟨by decide, by decide,
    (canMapImpl_true_iff sampleCanSupport id zeroRowCGRA ⟨["add"]⟩).2.2 (by decide) (by decide)⟩

/-! ## Loop selection -/

theorem descendSubLoops_eq_iterate : ∀ l : Loop,
    descendSubLoops l = firstSubLoop^[firstSubLoopDepth l] l
  | .mk _ [] => rfl
  | .mk l (s :: rest) => by
    have ih := descendSubLoops_eq_iterate s
    simp only [descendSubLoops, firstSubLoopDepth, Function.iterate_succ, Function.comp]
    rw [ih]
    rfl

theorem descendSubLoops_innermost : ∀ l : Loop, (descendSubLoops l).getSubLoops = []
  | .mk _ [] => rfl
  | .mk _ (s :: _) => by
    simp only [descendSubLoops]
    exact descendSubLoops_innermost s

theorem scanTopLevel_eq (targetLoopID : Int) (t_targetNested : Bool) (LI : List Loop) (c : Int) :
    scanTopLevel targetLoopID t_targetNested LI c =
      if c ≤ targetLoopID ∧ targetLoopID < c + LI.length then
        (LI.get? (targetLoopID - c).toNat).map (refSel t_targetNested)
      else none := by
  induction LI generalizing c with
  | nil =>
    have hcond : ¬ (c ≤ targetLoopID ∧ targetLoopID < c + (([] : List Loop).length : Int)) := by
      simp only [List.length_nil, Nat.cast_zero, add_zero]
      omega
    rw [if_neg hcond]
    rfl
  | cons l rest ih =>
    simp only [scanTopLevel, List.length_cons]
    by_cases h : c = targetLoopID
    · subst h
      have hcond : c ≤ c ∧ c < c + ((rest.length + 1 : Nat) : Int) := by
        constructor <;> omega
      rw [if_pos rfl, if_pos hcond]
      simp only [sub_self, Int.toNat_zero, List.get?_cons_zero, Option.map_some']
      cases t_targetNested <;> simp [refSel, descendSubLoops_eq_iterate]
    · rw [if_neg h, ih]
      by_cases h2 : c ≤ targetLoopID ∧ targetLoopID < c + (↑(rest.length + 1) : Int)
      · have h3 : c + 1 ≤ targetLoopID ∧ targetLoopID < c + 1 + (rest.length : Int) := by
          constructor <;> omega
        rw [if_pos h2, if_pos h3]
        have : (targetLoopID - c).toNat = (targetLoopID - (c + 1)).toNat + 1 := by omega
        rw [this, List.get?_cons_succ]
      · have h3 : ¬ (c + 1 ≤ targetLoopID ∧ targetLoopID < c + 1 + (rest.length : Int)) := by
          intro h'
          apply h2
          constructor <;> omega
        rw [if_neg h2, if_neg h3]

theorem collectTargetLoops_eq (t_targetNested : Bool) (LI : List Loop) (ids : List Int)
    (targetLoops : List Loop) :
    collectTargetLoops t_targetNested LI ids targetLoops
      = targetLoops ++ refTargetLoops t_targetNested ids LI := by
  induction ids generalizing targetLoops with
  | nil => simp [collectTargetLoops, refTargetLoops]
  | cons id ids ih =>
    simp only [collectTargetLoops, scanTopLevel_eq, refTargetLoops, List.filterMap_cons]
    simp only [zero_add, sub_zero]
    cases h : (if 0 ≤ id ∧ id < (LI.length : Int) then
        (LI.get? id.toNat).map (refSel t_targetNested) else none) with
    | none => simp only [ih, refTargetLoops]
    | some l => simp only [ih, refTargetLoops, List.append_assoc, List.singleton_append]

theorem refSel_innermost (l : Loop) : (refSel false l).getSubLoops = [] := by
  simp only [refSel, Bool.false_eq_true, if_false, ← descendSubLoops_eq_iterate]
  exact descendSubLoops_innermost l

/-- C9. For every id list and every loop forest, `getTargetLoopsImpl` returns
the reference list: in the order of the ids, `sel (top[id])` for each id with
`0 ≤ id < top.length`, ids out of range contributing nothing and repeated ids
once per occurrence, where `sel` is the identity under `targetNested` and the
descent along first subloops otherwise; without `targetNested` every returned
loop has no subloops. The model is a total function, so the descent ends. -/
theorem getTargetLoopsImpl_eq_ref (fname : String) (t_functionWithLoop : Registry)
    (t_targetNested : Bool) (LI : List Loop) (ids : List Int)
    (h : mapFind t_functionWithLoop fname = some ids) :
    getTargetLoopsImpl fname t_functionWithLoop t_targetNested LI
        = .ok (refTargetLoops t_targetNested ids LI, mapSet t_functionWithLoop fname [])
    ∧ (t_targetNested = false →
        ∀ l ∈ refTargetLoops t_targetNested ids LI, l.getSubLoops = []) := by
  constructor
  · simp only [getTargetLoopsImpl, h, collectTargetLoops_eq, List.nil_append]
  · rintro rfl l hl
    simp only [refTargetLoops, List.mem_filterMap] at hl
    obtain ⟨id, _, hid⟩ := hl
    split at hid
    · simp only [Option.map_eq_some'] at hid
      obtain ⟨l0, _, rfl⟩ := hid
      exact refSel_innermost l0
    · cases hid


/-- C9, instance: the ids `[1, 5, 0, -1, 0]` on the sample forest. -/
theorem getTargetLoopsImpl_eq_ref_witness :
    mapFind [("spmv", [1, 5, 0, -1, 0])] "spmv" = some [1, 5, 0, -1, 0]
    ∧ getTargetLoopsImpl "spmv" [("spmv", [1, 5, 0, -1, 0])] false sampleLoops
        = .ok ([.mk 20 [], .mk 12 [], .mk 12 []], [("spmv", [])]) :=
  ⟨by decide,
    (getTargetLoopsImpl_eq_ref "spmv" [("spmv", [1, 5, 0, -1, 0])] false sampleLoops
      [1, 5, 0, -1, 0] (by decide)).1.trans (by rfl)⟩

/-! ## Configuration -/

theorem firstMissingKey_some (param : StrMap Json) (keys : List String) (k : String)
    (h : firstMissingKey param keys = some k) : k ∈ keys ∧ mapFind param k = none := by
  induction keys with
  | nil => simp [firstMissingKey] at h
  | cons k0 rest ih =>
    simp only [firstMissingKey] at h
    cases hk : mapFind param k0 with
    | none =>
      rw [hk] at h
      simp only [Option.some.injEq] at h
      subst h
      exact ⟨List.mem_cons_self _ _, hk⟩
    | some v =>
      rw [hk] at h
      exact ⟨List.mem_cons_of_mem _ (ih h).1, (ih h).2⟩

theorem firstMissingKey_none (param : StrMap Json) (keys : List String) :
    firstMissingKey param keys = none ↔ ∀ k ∈ keys, mapFind param k ≠ none := by
  induction keys with
  | nil => simp [firstMissingKey]
  | cons k0 rest ih =>
    simp only [firstMissingKey]
    cases hk : mapFind param k0 with
    | none => simp [hk]
    | some v => simp [hk, ih]

theorem paramKeys_eq : paramKeys =
    [ "bypassConstraint", "column", "ctrlMemConstraint", "doCGRAMapping", "fusionStrategy",
      "heuristicMapping", "isStaticElasticCGRA", "isTrimmedDemo", "kernel",
      "parameterizableCGRA", "precisionAware", "regConstraint", "row", "targetFunction",
      "targetLoopsID", "targetNested", "vectorizationMode" ] := by decide

theorem mem_paramKeys_iff (k : String) : k ∈ paramKeys ↔ k ∈ paramKeyInserts := by
  rw [paramKeys_eq]
  simp only [paramKeyInserts, List.mem_cons, List.mem_singleton, List.not_mem_nil, or_false]
  tauto


theorem assignRequired_functionWithLoop (param : StrMap Json) (p p' : Params)
    (h : assignRequired param p = .ok p') : p'.functionWithLoop = p.functionWithLoop := by
  unfold assignRequired at h
  simp only [bind, Except.bind, pure, Except.pure] at h
  repeat' split at h
  all_goals (cases h <;> rfl)

theorem assignOptional_functionWithLoop (param : StrMap Json) (p p' : Params)
    (h : assignOptional param p = .ok p') : p'.functionWithLoop = p.functionWithLoop := by
  unfold assignOptional at h
  simp only [bind, Except.bind, pure, Except.pure] at h
  repeat' split at h
  all_goals (cases h <;> rfl)

theorem assignTables_functionWithLoop (param : StrMap Json) (p p' : Params)
    (h : assignTables param p = .ok p') : p'.functionWithLoop = p.functionWithLoop := by
  unfold assignTables at h
  simp only [bind, Except.bind, pure, Except.pure] at h
  repeat' split at h
  all_goals (cases h <;> rfl)

theorem mapFind_foldl_mapPushBack {V : Type} (xs : List V) (k : String) (m : StrMap (List V))
    (q : String) :
    mapFind (xs.foldl (fun r x => mapPushBack r k x) m) q
      = if q = k then (mapFind m q).map (fun l => l ++ xs) else mapFind m q := by
  induction xs generalizing m with
  | nil => by_cases hq : q = k <;> simp [hq]
  | cons x xs ih =>
    simp only [List.foldl_cons, ih, mapFind_mapPushBack]
    by_cases hq : q = k
    · simp only [hq, if_true, Option.map_map]
      congr 1
      funext l
      simp
    · simp [hq]

theorem assignTarget_functionWithLoop (param : StrMap Json) (p p' : Params)
    (h : assignTarget param p = .ok p') :
    ∃ kernel loops, (jsonAt param "kernel").getString = .ok kernel
      ∧ (jsonAt param "targetLoopsID").elements Json.getInt = .ok loops
      ∧ ∀ q, mapFind p'.functionWithLoop q
          = if q = kernel then some loops else mapFind p.functionWithLoop q := by
  unfold assignTarget at h
  simp only [bind, Except.bind, pure, Except.pure] at h
  repeat' split at h
  all_goals first
    | (cases h; done)
    | skip
  rename_i _ kernel hk _ loops hl
  cases h
  refine ⟨kernel, loops, hk, hl, ?_⟩
  intro q
  simp only [mapFind_foldl_mapPushBack, mapFind_mapSet]
  by_cases hq : q = kernel <;> simp [hq]

theorem assignParams_functionWithLoop (param : StrMap Json) (p p' : Params)
    (h : assignParams param p = .ok p') :
    ∃ kernel loops, (jsonAt param "kernel").getString = .ok kernel
      ∧ (jsonAt param "targetLoopsID").elements Json.getInt = .ok loops
      ∧ ∀ q, mapFind p'.functionWithLoop q
          = if q = kernel then some loops else mapFind p.functionWithLoop q := by
  unfold assignParams at h
  simp only [bind, Except.bind] at h
  split at h
  · cases h
  · rename_i _ p1 h1
    split at h
    · cases h
    · rename_i _ p2 h2
      split at h
      · cases h
      · rename_i _ p3 h3
        obtain ⟨kernel, loops, hk, hl, hq⟩ := assignTarget_functionWithLoop param p p1 h1
        refine ⟨kernel, loops, hk, hl, ?_⟩
        intro q
        rw [assignTables_functionWithLoop param p3 p' h, assignOptional_functionWithLoop param p2 p3 h3,
          assignRequired_functionWithLoop param p1 p2 h2, hq]

theorem toInt32_of_range (n : Int) (h : -2147483648 ≤ n ∧ n < 2147483648) : toInt32 n = n := by
  unfold toInt32
  omega

theorem convertElements_nums (L : List Int) (hL : ∀ x ∈ L, -2147483648 ≤ x ∧ x < 2147483648)
    (n idx : Nat) (h : idx + n = L.length) :
    convertElements Json.getInt (.arr (L.map .num)) n idx = .ok (L.drop idx) := by
  induction n generalizing idx with
  | zero =>
    have : L.drop idx = [] := List.drop_eq_nil_of_le (by omega)
    simp [convertElements, this]
  | succ n ih =>
    have hlt : idx < L.length := by omega
    have hdrop : L.drop idx = L[idx] :: L.drop (idx + 1) := by
      exact List.drop_eq_getElem_cons hlt
    simp only [convertElements, Json.atIdx]
    have hget : (L.map Json.num).getD idx Json.null = .num L[idx] := by
      simp [List.getD_eq_getElem?_getD, hlt]
    rw [hget]
    simp only [Json.getInt, toInt32_of_range _ (hL _ (List.getElem_mem _)),
      ih (idx + 1) (by omega), hdrop]

theorem elements_nums (L : List Int) (hL : ∀ x ∈ L, -2147483648 ≤ x ∧ x < 2147483648) :
    (Json.arr (L.map .num)).elements Json.getInt = .ok L := by
  unfold Json.elements
  rw [convertElements_nums L hL _ 0 (by simp [Json.size])]
  simp

theorem loadConfiguration_ok_some (param : StrMap Json) (ev : List Event) (p : Params)
    (h : loadConfiguration (some param) = (ev, .ok p)) :
    ev = [] ∧ checkParamKeys param = none ∧ assignParams param initialParams = .ok p := by
  unfold loadConfiguration at h
  simp only at h
  split at h
  · cases h
  · rename_i hck
    split at h
    · cases h
    · rename_i p' hp
      cases h
      exact ⟨rfl, hck, hp⟩

theorem loadConfiguration_ok_none (ev : List Event) (p : Params)
    (h : loadConfiguration none = (ev, .ok p)) :
    ev = [Event.defaultParamsWarning] ∧ p = initialParams := by
  unfold loadConfiguration at h
  cases h
  exact ⟨rfl, rfl⟩

theorem getTargetLoopsImpl_of_find (fname : String) (reg : Registry) (nested : Bool)
    (LI : List Loop) (ids : List Int) (h : mapFind reg fname = some ids) :
    getTargetLoopsImpl fname reg nested LI
      = .ok (collectTargetLoops nested LI ids [], mapSet reg fname []) := by
  simp only [getTargetLoopsImpl, h]

theorem runConfigured_not_target {Node Tile : Type} (W : World Node Tile) (fname : String)
    (LI : List Loop) (p : Params) (h : mapFind p.functionWithLoop fname = none) :
    runConfigured W fname LI p = ⟨[Event.notInTargetList fname], .returned false⟩ := by
  simp only [runConfigured, h]

theorem runConfigured_target {Node Tile : Type} (W : World Node Tile) (fname : String)
    (LI : List Loop) (p : Params) (ids : List Int)
    (h : mapFind p.functionWithLoop fname = some ids) :
    runConfigured W fname LI p =
      ⟨[Event.isTarget fname, Event.getTargetLoops]
          ++ analyseEvents W fname (collectTargetLoops p.targetNested LI ids []) p
          ++ (mapStage W p (analyse W fname (collectTargetLoops p.targetNested LI ids []) p)).trace,
        (mapStage W p (analyse W fname (collectTargetLoops p.targetNested LI ids []) p)).outcome⟩ := by
  simp only [runConfigured, h, getTargetLoopsImpl_of_find fname _ _ LI ids h]

theorem runMapperImpl_of_load {Node Tile : Type} (W : World Node Tile) (fname : String)
    (LI : List Loop) (file : Option (StrMap Json)) (ev : List Event) (p : Params)
    (h : loadConfiguration file = (ev, .ok p)) :
    runMapperImpl W fname LI file
      = ⟨ev ++ (runConfigured W fname LI p).trace, (runConfigured W fname LI p).outcome⟩ := by
  simp only [runMapperImpl, h]

theorem mapStage_outcome {Node Tile : Type} (W : World Node Tile) (p : Params)
    (a : Analysed Node Tile) : (mapStage W p a).outcome = .returned false := by
  unfold mapStage
  split
  · rfl
  · simp only
    split <;> rfl

theorem runConfigured_outcome {Node Tile : Type} (W : World Node Tile) (fname : String)
    (LI : List Loop) (p : Params) : (runConfigured W fname LI p).outcome = .returned false := by
  cases h : mapFind p.functionWithLoop fname with
  | none => rw [runConfigured_not_target W fname LI p h]
  | some ids => rw [runConfigured_target W fname LI p ids h]; exact mapStage_outcome _ _ _

theorem not_mem_analyseEvents {Node Tile : Type} (W : World Node Tile) (fname : String)
    (targetLoops : List Loop) (p : Params) (e : Event)
    (h : e = Event.generateJSON4IncrementalMap ∨ ∃ k, e = Event.missingParam k) :
    e ∉ analyseEvents W fname targetLoops p := by
  unfold analyseEvents
  rcases h with rfl | ⟨k, rfl⟩ <;>
  · simp only [List.mem_append, List.mem_cons, List.mem_singleton, not_or]
    refine ⟨⟨⟨?_, ?_⟩, ?_⟩, ?_⟩
    all_goals (try split) <;> simp

theorem not_mem_schedule {Node Tile : Type} (W : World Node Tile) (p : Params)
    (a : Analysed Node Tile) (e : Event)
    (h : e = Event.generateJSON4IncrementalMap ∨ ∃ k, e = Event.missingParam k) :
    e ∉ (schedule W p a).1 := by
  unfold schedule
  rcases h with rfl | ⟨k, rfl⟩ <;>
  · cases p.isStaticElasticCGRA <;> cases p.heuristicMapping <;> cases p.incrementalMapping <;> simp

theorem not_mem_report_missingParam {Node Tile : Type} (W : World Node Tile) (p : Params)
    (a : Analysed Node Tile) (II : Int) (k : String) :
    Event.missingParam k ∉ report W p a II := by
  unfold report
  split
  · simp
  · cases p.enableExpandableMapping <;> cases p.incrementalMapping <;> simp

theorem not_mem_mapStage_missingParam {Node Tile : Type} (W : World Node Tile) (p : Params)
    (a : Analysed Node Tile) (k : String) :
    Event.missingParam k ∉ (mapStage W p a).trace := by
  unfold mapStage
  split
  · simp
  · simp only
    split
    · simp
    · simp only [List.mem_append, List.mem_singleton, not_or]
      exact ⟨⟨by simp, not_mem_schedule W p a _ (Or.inr ⟨k, rfl⟩)⟩,
        not_mem_report_missingParam W p a _ k⟩

theorem not_mem_runConfigured_missingParam {Node Tile : Type} (W : World Node Tile)
    (fname : String) (LI : List Loop) (p : Params) (k : String) :
    Event.missingParam k ∉ (runConfigured W fname LI p).trace := by
  cases h : mapFind p.functionWithLoop fname with
  | none => rw [runConfigured_not_target W fname LI p h]; simp
  | some ids =>
    rw [runConfigured_target W fname LI p ids h]
    simp only [List.mem_append, not_or]
    exact ⟨⟨by simp, not_mem_analyseEvents W fname _ p _ (Or.inr ⟨k, rfl⟩)⟩,
      not_mem_mapStage_missingParam W p _ k⟩

/-- C2 (as stated, refuted). The configuration `fourKeyConfig` holds the keys
`row`, `column`, `kernel` and `targetLoopsID` with well-typed values, and yet
the key check of `runMapperImpl` fails on it: the run consists of the
missing-key diagnostic for `bypassConstraint` and ends in `exit(0)`. -/
theorem fourKeyConfig_rejected :
    mapFind fourKeyConfig "row" = some (.num 4)
    ∧ mapFind fourKeyConfig "column" = some (.num 4)
    ∧ mapFind fourKeyConfig "kernel" = some (.str "kernel")
    ∧ mapFind fourKeyConfig "targetLoopsID" = some (.arr [.num 0])
    ∧ checkParamKeys fourKeyConfig = some "bypassConstraint"
    ∧ (runMapperImpl sampleWorld "kernel" sampleLoops (some fourKeyConfig)).trace.map Event.tag
        = ["missingParam"]
    ∧ (runMapperImpl sampleWorld "kernel" sampleLoops (some fourKeyConfig)).outcome = .exited 0 :=
  ⟨rfl, rfl, rfl, rfl, by decide, by decide, by decide⟩

/-- C2 (amended). The required keys are the seventeen keys of `paramKeys`:
for every configuration that contains all of them, whatever other keys it has,
the key check passes, no run prints a missing-key diagnostic and no run ends in
`exit(0)`. -/
theorem checkParamKeys_passes (param : StrMap Json)
    (h : ∀ k ∈ paramKeyInserts, (mapFind param k).isSome = true) :
    checkParamKeys param = none
    ∧ ∀ (Node Tile : Type) (W : World Node Tile) (fname : String) (LI : List Loop),
        (∀ k, Event.missingParam k ∉ (runMapperImpl W fname LI (some param)).trace)
        ∧ (runMapperImpl W fname LI (some param)).outcome ≠ .exited 0 := by
  have hck : checkParamKeys param = none := by
    unfold checkParamKeys
    rw [firstMissingKey_none]
    intro k hk hnone
    have := h k ((mem_paramKeys_iff k).1 hk)
    rw [hnone] at this
    cases this
  refine ⟨hck, ?_⟩
  intro Node Tile W fname LI
  cases hp : assignParams param initialParams with
  | error e =>
    have hrun : runMapperImpl W fname LI (some param) = ⟨[], .uncaught e⟩ := by
      simp only [runMapperImpl, loadConfiguration, hck, hp]
    rw [hrun]
    exact ⟨fun k => by simp, by simp⟩
  | ok p =>
    have hload : loadConfiguration (some param) = ([], .ok p) := by
      simp only [loadConfiguration, hck, hp]
    rw [runMapperImpl_of_load W fname LI _ _ _ hload]
    refine ⟨fun k => ?_, ?_⟩
    · simpa using not_mem_runConfigured_missingParam W fname LI p k
    · simp [runConfigured_outcome]

/-- C2 (amended), instance: the configuration `fullConfig`. -/
theorem checkParamKeys_passes_witness :
    (∀ k ∈ paramKeyInserts, (mapFind fullConfig k).isSome = true)
    ∧ checkParamKeys fullConfig = none :=
  ⟨by decide, (checkParamKeys_passes fullConfig (by decide)).1⟩

/-- C3. When the configuration lacks one of the keys `row`, `column`, `kernel`,
`targetLoopsID`, every run of `runMapperImpl` consists of one missing-key
diagnostic, naming a key that the configuration does not have, followed by
`exit(0)`: no parameter is assigned and nothing else is called. -/
theorem runMapperImpl_missing_required (param : StrMap Json) (k : String)
    (hk : k = "row" ∨ k = "column" ∨ k = "kernel" ∨ k = "targetLoopsID")
    (hmiss : mapFind param k = none) :
    ∃ k', mapFind param k' = none
      ∧ loadConfiguration (some param) = ([Event.missingParam k'], .error (.exited 0))
      ∧ ∀ (Node Tile : Type) (W : World Node Tile) (fname : String) (LI : List Loop),
          runMapperImpl W fname LI (some param) = ⟨[Event.missingParam k'], .exited 0⟩ := by
  have hmem : k ∈ paramKeys := by
    rw [paramKeys_eq]
    rcases hk with rfl | rfl | rfl | rfl <;> decide
  cases hck : checkParamKeys param with
  | none =>
    exact absurd hmiss ((firstMissingKey_none param paramKeys).1 hck k hmem)
  | some k' =>
    have hload : loadConfiguration (some param)
        = ([Event.missingParam k'], .error (.exited 0)) := by
      simp only [loadConfiguration, hck]
    refine ⟨k', (firstMissingKey_some param paramKeys k' hck).2, hload, ?_⟩
    intro Node Tile W fname LI
    simp only [runMapperImpl, hload]

/-- C3, instance: a configuration that only has the key `column`. -/
theorem runMapperImpl_missing_required_witness :
    mapFind [("column", Json.num 4)] "row" = none
    ∧ ∃ k', mapFind [("column", Json.num 4)] k' = none
      ∧ loadConfiguration (some [("column", Json.num 4)])
          = ([Event.missingParam k'], .error (.exited 0))
      ∧ ∀ (Node Tile : Type) (W : World Node Tile) (fname : String) (LI : List Loop),
          runMapperImpl W fname LI (some [("column", Json.num 4)])
            = ⟨[Event.missingParam k'], .exited 0⟩ :=
  ⟨rfl, runMapperImpl_missing_required [("column", Json.num 4)] "row" (Or.inl rfl) rfl⟩

/-- C4. When `./param.json` cannot be opened, `runMapperImpl` prints the
warning and continues with the default parameters: a 4 x 4 grid, the default
flags and constraints, empty tables, and the registry of `addDefaultKernels`. -/
theorem loadConfiguration_defaults :
    ∃ p, loadConfiguration none = ([Event.defaultParamsWarning], .ok p)
      ∧ p.rows = 4 ∧ p.columns = 4
      ∧ p.targetEntireFunction = false ∧ p.targetNested = false
      ∧ p.doCGRAMapping = true ∧ p.isStaticElasticCGRA = false ∧ p.isTrimmedDemo = true
      ∧ p.ctrlMemConstraint = 200 ∧ p.bypassConstraint = 4 ∧ p.regConstraint = 8
      ∧ p.precisionAware = false ∧ p.vectorizationMode = "all"
      ∧ p.heuristicMapping = true ∧ p.parameterizableCGRA = false
      ∧ p.incrementalMapping = false
      ∧ p.supportDVFS = false ∧ p.DVFSAwareMapping = false ∧ p.DVFSIslandDim = 2
      ∧ p.enablePowerGating = false ∧ p.enableExpandableMapping = false
      ∧ p.vectorFactorForIdiv = 1 ∧ p.multiCycleStrategy = "exclusive"
      ∧ p.execLatency = [] ∧ p.pipelinedOpt = [] ∧ p.fusionStrategy = []
      ∧ p.fusionPattern = [] ∧ p.additionalFunc = []
      ∧ p.functionWithLoop = addDefaultKernels []
      ∧ ∀ (Node Tile : Type) (W : World Node Tile) (fname : String) (LI : List Loop),
          runMapperImpl W fname LI none
            = ⟨Event.defaultParamsWarning :: (runConfigured W fname LI p).trace,
                (runConfigured W fname LI p).outcome⟩ := by
  refine ⟨initialParams, rfl, rfl, rfl, rfl, rfl, rfl, rfl, rfl, rfl, rfl, rfl, rfl, rfl, rfl,
    rfl, rfl, rfl, rfl, rfl, rfl, rfl, rfl, rfl, rfl, rfl, rfl, rfl, rfl, rfl, ?_⟩
  intro Node Tile W fname LI
  rfl

/-- C5 (the code at the failing input). The configuration `idivConfig` is
accepted and sets `vectorFactorForIdiv` to 4, and the factor that
`runMapperImpl` passes to `new DFG(...)` is 1. -/
theorem idivConfig_factor :
    mapFind idivConfig "vectorFactorForIdiv" = some (.num 4)
    ∧ (runMapperImpl sampleWorld "conv" sampleLoops (some idivConfig)).outcome = .returned false
    ∧ (runMapperImpl sampleWorld "conv" sampleLoops (some idivConfig)).trace.filterMap
        Event.idivFactor = [1] :=
  ⟨rfl, by decide, by decide⟩

/-- C7. After an accepted configuration with kernel name `kernel` and
`targetLoopsID` `L` (a list of `int` values), the registry maps `kernel` to
exactly `L`, and every other name to what the built-in registry maps it to. -/
theorem loadConfiguration_registry (param : StrMap Json) (kernel : String) (L : List Int)
    (ev : List Event) (p : Params)
    (hk : mapFind param "kernel" = some (.str kernel))
    (hl : mapFind param "targetLoopsID" = some (.arr (L.map .num)))
    (hL : ∀ x ∈ L, -2147483648 ≤ x ∧ x < 2147483648)
    (hload : loadConfiguration (some param) = (ev, .ok p)) :
    mapFind p.functionWithLoop kernel = some L
    ∧ ∀ q, q ≠ kernel → mapFind p.functionWithLoop q = mapFind (addDefaultKernels []) q := by
  obtain ⟨_, _, hp⟩ := loadConfiguration_ok_some param ev p hload
  obtain ⟨kernel', loops, hk', hl', hq⟩ := assignParams_functionWithLoop param _ p hp
  have e1 : kernel' = kernel := by
    simp only [jsonAt, hk, Option.getD_some, Json.getString] at hk'
    cases hk'
    rfl
  have e2 : loops = L := by
    simp only [jsonAt, hl, Option.getD_some, elements_nums L hL] at hl'
    cases hl'
    rfl
  subst e1 e2
  constructor
  · rw [hq]; simp
  · intro q hne
    rw [hq]
    simp only [hne, if_false]
    rfl

/-- C7, instance: the configuration `fullConfig`. -/
theorem loadConfiguration_registry_witness :
    loadConfiguration (some fullConfig) = ([], .ok fullParams)
    ∧ mapFind fullParams.functionWithLoop "conv" = some [2, 0]
    ∧ ∀ q, q ≠ "conv" →
        mapFind fullParams.functionWithLoop q = mapFind (addDefaultKernels []) q :=
  ⟨rfl, loadConfiguration_registry fullConfig "conv" [2, 0] [] fullParams rfl rfl (by decide) rfl⟩

/-! ## The driver -/

theorem getString_jsonAt (param : StrMap Json) (key s : String)
    (h : (jsonAt param key).getString = .ok s) : mapFind param key = some (.str s) := by
  unfold jsonAt at h
  cases hf : mapFind param key with
  | none =>
    rw [hf] at h
    simp [Json.getString] at h
  | some v =>
    rw [hf] at h
    cases v <;> simp [Json.getString] at h
    rw [h]

/-- C8. Under a configuration that loads (or without `param.json`): when the
function name is neither in the built-in registry nor the configured `kernel`,
the run of `runMapperImpl` after loading consists of the message that the
function is not in the target list and returns false, so nothing is selected,
built, scheduled or generated; when the name is in the registry after
configuration, the run continues with the target message and the call of
`getTargetLoopsImpl`. -/
theorem runMapperImpl_target_check {Node Tile : Type} (W : World Node Tile) (fname : String)
    (LI : List Loop) (file : Option (StrMap Json)) (ev : List Event) (p : Params)
    (hload : loadConfiguration file = (ev, .ok p)) :
    (mapFind (addDefaultKernels []) fname = none →
      (∀ param, file = some param → mapFind param "kernel" ≠ some (.str fname)) →
      runMapperImpl W fname LI file = ⟨ev ++ [Event.notInTargetList fname], .returned false⟩)
    ∧ ((mapFind p.functionWithLoop fname).isSome = true →
        ∃ rest, (runMapperImpl W fname LI file).trace
          = ev ++ Event.isTarget fname :: Event.getTargetLoops :: rest) := by
  rw [runMapperImpl_of_load W fname LI file ev p hload]
  constructor
  · intro hb hk
    have hnone : mapFind p.functionWithLoop fname = none := by
      cases file with
      | none =>
        obtain ⟨_, rfl⟩ := loadConfiguration_ok_none ev p hload
        exact hb
      | some param =>
        obtain ⟨_, _, hp⟩ := loadConfiguration_ok_some param ev p hload
        obtain ⟨kernel, loops, hk', _, hq⟩ := assignParams_functionWithLoop param _ p hp
        have hne : fname ≠ kernel := by
          rintro rfl
          exact hk param rfl (getString_jsonAt param "kernel" fname hk')
        rw [hq, if_neg hne]
        exact hb
    rw [runConfigured_not_target W fname LI p hnone]
  · intro hs
    cases hf : mapFind p.functionWithLoop fname with
    | none => rw [hf] at hs; cases hs
    | some ids =>
      rw [runConfigured_target W fname LI p ids hf]
      exact ⟨analyseEvents W fname (collectTargetLoops p.targetNested LI ids []) p
          ++ (mapStage W p (analyse W fname (collectTargetLoops p.targetNested LI ids []) p)).trace,
        by simp only [List.cons_append, List.nil_append, List.append_assoc]⟩

/-- C8, instance: the function `conv` without `param.json`. -/
theorem runMapperImpl_target_check_witness :
    loadConfiguration none = ([Event.defaultParamsWarning], .ok initialParams)
    ∧ mapFind (addDefaultKernels []) "conv" = none
    ∧ runMapperImpl sampleWorld "conv" sampleLoops none
        = ⟨[Event.defaultParamsWarning] ++ [Event.notInTargetList "conv"], .returned false⟩ :=
  ⟨rfl, by decide,
    (runMapperImpl_target_check sampleWorld "conv" sampleLoops none
      [Event.defaultParamsWarning] initialParams rfl).1 (by decide)
      (fun _ h => Option.noConfusion h)⟩

theorem not_mem_report_incremental {Node Tile : Type} (W : World Node Tile) (p : Params)
    (a : Analysed Node Tile) (II : Int) (h : p.incrementalMapping = true) :
    Event.generateJSON4IncrementalMap ∉ report W p a II := by
  unfold report
  split
  · simp
  · cases p.enableExpandableMapping <;> simp [h]

theorem report_success {Node Tile : Type} (W : World Node Tile) (p : Params)
    (a : Analysed Node Tile) (II : Int) (h : II ≠ -1) :
    ∃ pre, report W p a II = pre
      ++ (Event.generateJSON II p.isStaticElasticCGRA
        :: (if p.incrementalMapping then [] else [Event.generateJSON4IncrementalMap])) := by
  unfold report
  rw [if_neg h]
  refine ⟨[Event.showSchedule II p.isStaticElasticCGRA p.parameterizableCGRA, Event.mappingSuccess]
      ++ (if p.enableExpandableMapping then
            [Event.getExpandableII II (W.getExpandableII a.dfg II)]
          else [])
      ++ [Event.showUtilization II p.isStaticElasticCGRA p.enablePowerGating], ?_⟩
  cases p.incrementalMapping <;> simp

theorem mapStage_mapped {Node Tile : Type} (W : World Node Tile) (p : Params)
    (a : Analysed Node Tile) (hdo : p.doCGRAMapping = true)
    (hcan : (canMapImpl W.canSupport W.getOpcodeName a.cgra a.dfg).1 = true) :
    (mapStage W p a).trace
      = [Event.canMap true (canMapImpl W.canSupport W.getOpcodeName a.cgra a.dfg).2]
        ++ (schedule W p a).1 ++ report W p a (schedule W p a).2 := by
  simp [mapStage, hdo, hcan]

/-- C10 (as stated, refuted). The configuration `incrementalConfig` sets
`incrementalMapping` to true; on the sample world the run maps with
`incrementalMap`, succeeds, calls `generateJSON` last, and never calls
`generateJSON4IncrementalMap`. -/
theorem incrementalConfig_no_incremental_file :
    mapFind incrementalConfig "incrementalMapping" = some (.bool true)
    ∧ (runMapperImpl sampleWorld "conv" sampleLoops (some incrementalConfig)).trace.map Event.tag
      = ["isTarget", "getTargetLoops", "newDFG", "newCGRA", "setRegConstraint",
          "setCtrlMemConstraint", "setBypassConstraint", "newMapper", "showOpcodeDistribution",
          "generateDot", "generateDFGJSON", "getResMII", "getRecMII", "canMap",
          "incrementalMap", "showSchedule", "mappingSuccess", "showUtilization",
          "generateJSON"] :=
  ⟨rfl, by decide⟩

/-- C10 (amended). On a run that reaches the mapping stage and succeeds (the
scheduling routine returns an `II` other than -1): when `incrementalMapping`
is false, `runMapperImpl` ends with the call of `generateJSON` followed by the
call of `generateJSON4IncrementalMap`; when `incrementalMapping` is true, it
ends with the call of `generateJSON` and never calls
`generateJSON4IncrementalMap`. -/
theorem runMapperImpl_incremental_file {Node Tile : Type} (W : World Node Tile)
    (fname : String) (LI : List Loop) (file : Option (StrMap Json)) (ev : List Event)
    (p : Params) (ids : List Int)
    (hload : loadConfiguration file = (ev, .ok p))
    (hreg : mapFind p.functionWithLoop fname = some ids)
    (hdo : p.doCGRAMapping = true)
    (hcan : (canMapImpl W.canSupport W.getOpcodeName
      (analyse W fname (collectTargetLoops p.targetNested LI ids []) p).cgra
      (analyse W fname (collectTargetLoops p.targetNested LI ids []) p).dfg).1 = true)
    (hII : (schedule W p (analyse W fname (collectTargetLoops p.targetNested LI ids []) p)).2
      ≠ -1) :
    (p.incrementalMapping = false →
      ∃ pre, (runMapperImpl W fname LI file).trace = pre ++
        [Event.generateJSON
            (schedule W p (analyse W fname (collectTargetLoops p.targetNested LI ids []) p)).2
            p.isStaticElasticCGRA,
          Event.generateJSON4IncrementalMap])
    ∧ (p.incrementalMapping = true →
      (∃ pre, (runMapperImpl W fname LI file).trace = pre ++
        [Event.generateJSON
            (schedule W p (analyse W fname (collectTargetLoops p.targetNested LI ids []) p)).2
            p.isStaticElasticCGRA])
      ∧ Event.generateJSON4IncrementalMap ∉ (runMapperImpl W fname LI file).trace) := by
  rw [runMapperImpl_of_load W fname LI file ev p hload,
    runConfigured_target W fname LI p ids hreg]
  simp only [mapStage_mapped W p _ hdo hcan]
  obtain ⟨pre, hpre⟩ := report_success W p
    (analyse W fname (collectTargetLoops p.targetNested LI ids []) p) _ hII
  constructor
  · intro hinc
    rw [hpre, hinc]
    exact ⟨ev ++ ([Event.isTarget fname, Event.getTargetLoops]
        ++ (analyseEvents W fname (collectTargetLoops p.targetNested LI ids []) p
        ++ ([Event.canMap true (canMapImpl W.canSupport W.getOpcodeName
              (analyse W fname (collectTargetLoops p.targetNested LI ids []) p).cgra
              (analyse W fname (collectTargetLoops p.targetNested LI ids []) p).dfg).2]
        ++ ((schedule W p (analyse W fname (collectTargetLoops p.targetNested LI ids []) p)).1
        ++ pre)))),
      by simp only [Bool.false_eq_true, if_false, List.append_assoc]⟩
  · intro hinc
    constructor
    · rw [hpre, hinc]
      exact ⟨ev ++ ([Event.isTarget fname, Event.getTargetLoops]
          ++ (analyseEvents W fname (collectTargetLoops p.targetNested LI ids []) p
          ++ ([Event.canMap true (canMapImpl W.canSupport W.getOpcodeName
                (analyse W fname (collectTargetLoops p.targetNested LI ids []) p).cgra
                (analyse W fname (collectTargetLoops p.targetNested LI ids []) p).dfg).2]
          ++ ((schedule W p (analyse W fname (collectTargetLoops p.targetNested LI ids []) p)).1
          ++ pre)))),
        by simp only [if_true, List.append_assoc]⟩
    · have hev : Event.generateJSON4IncrementalMap ∉ ev := by
        cases file with
        | none =>
          obtain ⟨rfl, _⟩ := loadConfiguration_ok_none ev p hload
          simp
        | some param =>
          obtain ⟨rfl, _⟩ := loadConfiguration_ok_some param ev p hload
          simp
      simp only [List.mem_append, not_or]
      exact ⟨hev, ⟨by simp, not_mem_analyseEvents W fname _ p _ (Or.inl rfl)⟩,
        ⟨by simp, not_mem_schedule W p _ _ (Or.inl rfl)⟩,
        not_mem_report_incremental W p _ _ hinc⟩

/-- C10 (amended), instance: the configuration `fullConfig` on the sample world. -/
theorem runMapperImpl_incremental_file_witness :
    loadConfiguration (some fullConfig) = ([], .ok fullParams)
    ∧ fullParams.incrementalMapping = false
    ∧ ∃ pre, (runMapperImpl sampleWorld "conv" sampleLoops (some fullConfig)).trace = pre ++
        [Event.generateJSON
            (schedule sampleWorld fullParams
              (analyse sampleWorld "conv"
                (collectTargetLoops fullParams.targetNested sampleLoops [2, 0] []) fullParams)).2
            fullParams.isStaticElasticCGRA,
          Event.generateJSON4IncrementalMap] :=
  ⟨rfl, rfl,
    (runMapperImpl_incremental_file sampleWorld "conv" sampleLoops (some fullConfig) []
      fullParams [2, 0] rfl (by decide) rfl (by decide) (by decide)).1 rfl⟩

/-! ## Order of strings and `std::set` -/

theorem char_lt_iff_toNat (a b : Char) : a < b ↔ a.toNat < b.toNat := by
  rw [Char.lt_iff_val_lt_val]
  exact Iff.rfl

theorem charsLt_iff_lt : ∀ (a b : List Char), charsLt a b = true ↔ List.lt a b
  | [], [] => by
    simp only [charsLt]
    constructor
    · intro h; cases h
    · intro h; cases h
  | [], b :: bs => by
    simp only [charsLt, true_iff]
    exact List.lt.nil b bs
  | a :: as, [] => by
    simp only [charsLt]
    constructor
    · intro h; cases h
    · intro h; cases h
  | a :: as, b :: bs => by
    simp only [charsLt]
    by_cases hab : a.toNat < b.toNat
    · simp only [hab, if_true, true_iff]
      exact List.lt.head as bs ((char_lt_iff_toNat a b).2 hab)
    · by_cases hba : b.toNat < a.toNat
      · simp only [hab, hba, if_false, if_true]
        constructor
        · intro h; cases h
        · intro h
          cases h with
          | head _ _ h1 => exact absurd ((char_lt_iff_toNat a b).1 h1) hab
          | tail _ h2 _ => exact absurd ((char_lt_iff_toNat b a).2 hba) h2
      · simp only [hab, hba, if_false]
        rw [charsLt_iff_lt as bs]
        constructor
        · intro h
          exact List.lt.tail (fun h1 => hab ((char_lt_iff_toNat a b).1 h1))
            (fun h1 => hba ((char_lt_iff_toNat b a).1 h1)) h
        · intro h
          cases h with
          | head _ _ h1 => exact absurd ((char_lt_iff_toNat a b).1 h1) hab
          | tail _ _ h3 => exact h3

theorem strLt_iff_lt (a b : String) : strLt a b = true ↔ a < b := by
  unfold strLt
  rw [charsLt_iff_lt, List.lt_iff_lex_lt, String.lt_iff_toList_lt]
  exact Iff.rfl

theorem charsLt_trans : ∀ (a b c : List Char), charsLt a b = true → charsLt b c = true →
    charsLt a c = true
  | [], b, [], _, h2 => by
    cases b <;> simp [charsLt] at h2
  | [], _, _ :: _, _, _ => by simp [charsLt]
  | _ :: _, [], _, h1, _ => by simp [charsLt] at h1
  | _ :: _, _ :: _, [], _, h2 => by simp [charsLt] at h2
  | a :: as, b :: bs, c :: cs, h1, h2 => by
    simp only [charsLt] at h1 h2 ⊢
    by_cases hab : a.toNat < b.toNat
    · by_cases hbc : b.toNat < c.toNat
      · have : a.toNat < c.toNat := by omega
        simp [this]
      · by_cases hcb : c.toNat < b.toNat
        · simp [hbc, hcb] at h2
        · have : a.toNat < c.toNat := by omega
          simp [this]
    · by_cases hba : b.toNat < a.toNat
      · simp [hab, hba] at h1
      · simp only [hab, hba, if_false] at h1
        by_cases hbc : b.toNat < c.toNat
        · have : a.toNat < c.toNat := by omega
          simp [this]
        · by_cases hcb : c.toNat < b.toNat
          · simp [hbc, hcb] at h2
          · simp only [hbc, hcb, if_false] at h2
            have e1 : ¬ a.toNat < c.toNat := by omega
            have e2 : ¬ c.toNat < a.toNat := by omega
            simp only [e1, e2, if_false]
            exact charsLt_trans as bs cs h1 h2

theorem strLt_trans {a b c : String} (h1 : strLt a b = true) (h2 : strLt b c = true) :
    strLt a c = true :=
  charsLt_trans a.data b.data c.data h1 h2

theorem strLt_asymm {a b : String} (h : strLt a b = true) : strLt b a = false := by
  cases hb : strLt b a with
  | false => rfl
  | true =>
    have := strLt_trans h hb
    rw [strLt_irrefl] at this
    cases this

theorem mem_setInsert (s : List String) (x y : String) :
    y ∈ setInsert s x ↔ y = x ∨ y ∈ s := by
  induction s with
  | nil => simp [setInsert]
  | cons z rest ih =>
    simp only [setInsert]
    by_cases h1 : strLt x z = true
    · rw [if_pos h1]
      simp only [List.mem_cons]
    · by_cases h2 : strLt z x = true
      · rw [if_neg h1, if_pos h2]
        simp only [List.mem_cons, ih]
        tauto
      · have hxz : x = z := (strEquiv_iff x z).1 (by simp [h1, h2])
        subst hxz
        rw [if_neg h1, if_neg h2]
        simp only [List.mem_cons]
        tauto

theorem pairwise_setInsert (s : List String) (x : String)
    (hs : s.Pairwise (fun a b => strLt a b = true)) :
    (setInsert s x).Pairwise (fun a b => strLt a b = true) := by
  induction s with
  | nil => simp [setInsert]
  | cons z rest ih =>
    have hs' := List.pairwise_cons.1 hs
    simp only [setInsert]
    by_cases h1 : strLt x z = true
    · rw [if_pos h1]
      refine List.pairwise_cons.2 ⟨?_, hs⟩
      intro y hy
      rcases List.mem_cons.1 hy with rfl | hy
      · exact h1
      · exact strLt_trans h1 (hs'.1 y hy)
    · by_cases h2 : strLt z x = true
      · rw [if_neg h1, if_pos h2]
        refine List.pairwise_cons.2 ⟨?_, ih hs'.2⟩
        intro y hy
        rcases (mem_setInsert rest x y).1 hy with rfl | hy
        · exact h2
        · exact hs'.1 y hy
      · rw [if_neg h1, if_neg h2]
        exact hs

theorem mem_collectMissingFus {Node Tile : Type} (canSupport : Tile → Node → Bool)
    (getOpcodeName : Node → String) (t_cgra : CGRA Tile) (nodes : List Node)
    (missing_fus : List String) (name : String) :
    name ∈ collectMissingFus canSupport getOpcodeName t_cgra nodes missing_fus ↔
      name ∈ missing_fus ∨ ∃ node ∈ nodes,
        getOpcodeName node = name ∧ nodeSupported canSupport t_cgra node = false := by
  induction nodes generalizing missing_fus with
  | nil => simp [collectMissingFus]
  | cons node rest ih =>
    simp only [collectMissingFus]
    by_cases hs : nodeSupported canSupport t_cgra node = true
    · simp only [hs, if_true, ih, List.mem_cons, exists_eq_or_imp]
      simp
    · have hf : nodeSupported canSupport t_cgra node = false := by
        cases h : nodeSupported canSupport t_cgra node
        · rfl
        · exact absurd h hs
      simp only [hf, Bool.false_eq_true, if_false, ih, mem_setInsert, List.mem_cons,
        exists_eq_or_imp, and_true]
      constructor
      · rintro ((rfl | h) | h)
        · exact Or.inr (Or.inl rfl)
        · exact Or.inl h
        · exact Or.inr (Or.inr h)
      · rintro (h | h | h)
        · exact Or.inl (Or.inr h)
        · exact Or.inl (Or.inl h.symm)
        · exact Or.inr h

theorem pairwise_collectMissingFus {Node Tile : Type} (canSupport : Tile → Node → Bool)
    (getOpcodeName : Node → String) (t_cgra : CGRA Tile) (nodes : List Node)
    (missing_fus : List String) (hs : missing_fus.Pairwise (fun a b => strLt a b = true)) :
    (collectMissingFus canSupport getOpcodeName t_cgra nodes missing_fus).Pairwise
      (fun a b => strLt a b = true) := by
  induction nodes generalizing missing_fus with
  | nil => simpa [collectMissingFus] using hs
  | cons node rest ih =>
    simp only [collectMissingFus]
    split
    · exact ih _ hs
    · exact ih _ (pairwise_setInsert _ _ hs)

theorem eq_of_pairwise_strLt (l₁ l₂ : List String)
    (h₁ : l₁.Pairwise (fun a b => strLt a b = true))
    (h₂ : l₂.Pairwise (fun a b => strLt a b = true))
    (h : ∀ x, x ∈ l₁ ↔ x ∈ l₂) : l₁ = l₂ := by
  induction l₁ generalizing l₂ with
  | nil =>
    cases l₂ with
    | nil => rfl
    | cons y ys => exact absurd ((h y).2 (List.mem_cons_self _ _)) (List.not_mem_nil _)
  | cons x xs ih =>
    cases l₂ with
    | nil => exact absurd ((h x).1 (List.mem_cons_self _ _)) (List.not_mem_nil _)
    | cons y ys =>
      rw [List.pairwise_cons] at h₁ h₂
      have hxy : x = y := by
        rcases List.mem_cons.1 ((h x).1 (List.mem_cons_self _ _)) with e | hx
        · exact e
        · rcases List.mem_cons.1 ((h y).2 (List.mem_cons_self _ _)) with e | hy
          · exact e.symm
          · have a1 := h₂.1 x hx
            have a2 := h₁.1 y hy
            rw [strLt_asymm a1] at a2
            cases a2
      subst hxy
      congr 1
      apply ih ys h₁.2 h₂.2
      intro z
      constructor
      · intro hz
        rcases List.mem_cons.1 ((h z).1 (List.mem_cons_of_mem _ hz)) with e | hz'
        · subst e
          have := h₁.1 z hz
          rw [strLt_irrefl] at this
          cases this
        · exact hz'
      · intro hz
        rcases List.mem_cons.1 ((h z).2 (List.mem_cons_of_mem _ hz)) with e | hz'
        · subst e
          have := h₂.1 z hz
          rw [strLt_irrefl] at this
          cases this
        · exact hz'

theorem canMapImpl_snd {Node Tile : Type} (canSupport : Tile → Node → Bool)
    (getOpcodeName : Node → String) (t_cgra : CGRA Tile) (t_dfg : DFG Node) :
    (canMapImpl canSupport getOpcodeName t_cgra t_dfg).2
      = collectMissingFus canSupport getOpcodeName t_cgra t_dfg.nodes [] := by
  unfold canMapImpl
  cases h : collectMissingFus canSupport getOpcodeName t_cgra t_dfg.nodes [] <;> simp

theorem canMapImpl_fst_eq {Node Tile : Type} (canSupport : Tile → Node → Bool)
    (getOpcodeName : Node → String) (t_cgra : CGRA Tile) (t_dfg : DFG Node) :
    (canMapImpl canSupport getOpcodeName t_cgra t_dfg).1
      = (collectMissingFus canSupport getOpcodeName t_cgra t_dfg.nodes []).isEmpty := by
  unfold canMapImpl
  cases h : collectMissingFus canSupport getOpcodeName t_cgra t_dfg.nodes [] <;> simp

theorem nodeSupported_eq_false_iff {Node Tile : Type} (canSupport : Tile → Node → Bool)
    (t_cgra : CGRA Tile) (node : Node) :
    nodeSupported canSupport t_cgra node = false ↔
      ¬ ∃ i j : Nat, (i : Int) < t_cgra.rows ∧ (j : Int) < t_cgra.columns ∧
        ∃ fu, t_cgra.nodes i j = some fu ∧ canSupport fu node = true := by
  rw [← nodeSupported_iff]
  simp

/-- C13. Whenever `canMapImpl` returns false, the list of missing functional
units it prints is not empty; a name is in it exactly when it is the opcode
name of a DFG node that no present tile of the grid supports; no name is
repeated; the names are in strictly ascending lexicographic order; and the
result is the same for every reordering of the DFG nodes. -/
theorem canMapImpl_missing_fus {Node Tile : Type} (canSupport : Tile → Node → Bool)
    (getOpcodeName : Node → String) (t_cgra : CGRA Tile) (t_dfg : DFG Node)
    (h : (canMapImpl canSupport getOpcodeName t_cgra t_dfg).1 = false) :
    (canMapImpl canSupport getOpcodeName t_cgra t_dfg).2 ≠ []
    ∧ (∀ name, name ∈ (canMapImpl canSupport getOpcodeName t_cgra t_dfg).2 ↔
        ∃ node ∈ t_dfg.nodes, getOpcodeName node = name ∧
          ¬ ∃ i j : Nat, (i : Int) < t_cgra.rows ∧ (j : Int) < t_cgra.columns ∧
            ∃ fu, t_cgra.nodes i j = some fu ∧ canSupport fu node = true)
    ∧ (canMapImpl canSupport getOpcodeName t_cgra t_dfg).2.Nodup
    ∧ (canMapImpl canSupport getOpcodeName t_cgra t_dfg).2.Pairwise (fun a b => a < b)
    ∧ ∀ t_dfg' : DFG Node, t_dfg'.nodes.Perm t_dfg.nodes →
        canMapImpl canSupport getOpcodeName t_cgra t_dfg'
          = canMapImpl canSupport getOpcodeName t_cgra t_dfg := by
  have hmem : ∀ (d : DFG Node) (name : String),
      name ∈ collectMissingFus canSupport getOpcodeName t_cgra d.nodes [] ↔
        ∃ node ∈ d.nodes, getOpcodeName node = name ∧
          ¬ ∃ i j : Nat, (i : Int) < t_cgra.rows ∧ (j : Int) < t_cgra.columns ∧
            ∃ fu, t_cgra.nodes i j = some fu ∧ canSupport fu node = true := by
    intro d name
    rw [mem_collectMissingFus]
    simp only [List.not_mem_nil, false_or, nodeSupported_eq_false_iff]
  have hsorted : ∀ d : DFG Node,
      (collectMissingFus canSupport getOpcodeName t_cgra d.nodes []).Pairwise
        (fun a b => strLt a b = true) :=
    fun d => pairwise_collectMissingFus _ _ _ _ _ List.Pairwise.nil
  rw [canMapImpl_snd]
  refine ⟨?_, hmem t_dfg, ?_, ?_, ?_⟩
  · rw [canMapImpl_fst_eq] at h
    intro he
    rw [he] at h
    cases h
  · exact (hsorted t_dfg).imp (fun {a b} hab => strLt_ne hab)
  · exact (hsorted t_dfg).imp (fun {a b} hab => (strLt_iff_lt a b).1 hab)
  · intro d hperm
    have heq : collectMissingFus canSupport getOpcodeName t_cgra d.nodes []
        = collectMissingFus canSupport getOpcodeName t_cgra t_dfg.nodes [] := by
      apply eq_of_pairwise_strLt _ _ (hsorted d) (hsorted t_dfg)
      intro name
      rw [hmem d, hmem t_dfg]
      constructor
      · rintro ⟨node, hn, rest⟩
        exact ⟨node, hperm.mem_iff.1 hn, rest⟩
      · rintro ⟨node, hn, rest⟩
        exact ⟨node, hperm.mem_iff.2 hn, rest⟩
    apply Prod.ext
    · rw [canMapImpl_fst_eq, canMapImpl_fst_eq, heq]
    · rw [canMapImpl_snd, canMapImpl_snd, heq]


/-- C13, instance: the DFG `divDFG` on the sample array, whose only tile
supports `add` and `mul`. -/
theorem canMapImpl_missing_fus_witness :
    (canMapImpl sampleCanSupport id sampleCGRA divDFG).1 = false
    ∧ (canMapImpl sampleCanSupport id sampleCGRA divDFG).2 = ["fdiv", "sdiv"]
    ∧ canMapImpl sampleCanSupport id sampleCGRA divDFGReordered
        = canMapImpl sampleCanSupport id sampleCGRA divDFG :=
  ⟨by decide, by decide,
    (canMapImpl_missing_fus sampleCanSupport id sampleCGRA divDFG (by decide)).2.2.2.2
      divDFGReordered (by decide)⟩


/-! ## Scheduling -/

theorem schedule_events {Node Tile : Type} (W : World Node Tile) (p : Params)
    (a : Analysed Node Tile) :
    (schedule W p a).1 =
      [if p.isStaticElasticCGRA then Event.exhaustiveMap a.II p.isStaticElasticCGRA
        else if p.heuristicMapping then
          (if p.incrementalMapping then Event.incrementalMap a.II
            else Event.heuristicMap a.II p.isStaticElasticCGRA)
        else Event.exhaustiveMap a.II p.isStaticElasticCGRA] := by
  unfold schedule
  cases p.isStaticElasticCGRA <;> cases p.heuristicMapping <;> cases p.incrementalMapping <;> rfl

theorem filterMap_schedulingCall_analyseEvents {Node Tile : Type} (W : World Node Tile)
    (fname : String) (targetLoops : List Loop) (p : Params) :
    (analyseEvents W fname targetLoops p).filterMap Event.schedulingCall = [] := by
  unfold analyseEvents
  cases p.enableExpandableMapping <;> cases p.supportDVFS <;> rfl

theorem filterMap_schedulingCall_report {Node Tile : Type} (W : World Node Tile) (p : Params)
    (a : Analysed Node Tile) (II : Int) :
    (report W p a II).filterMap Event.schedulingCall = [] := by
  unfold report
  split
  · rfl
  · cases p.enableExpandableMapping <;> cases p.incrementalMapping <;> rfl

theorem filterMap_schedulingCall_load (file : Option (StrMap Json)) (ev : List Event)
    (p : Params) (h : loadConfiguration file = (ev, .ok p)) :
    ev.filterMap Event.schedulingCall = [] := by
  cases file with
  | none =>
    obtain ⟨rfl, _⟩ := loadConfiguration_ok_none ev p h
    rfl
  | some param =>
    obtain ⟨rfl, _⟩ := loadConfiguration_ok_some param ev p h
    rfl

theorem schedulingCalls_of_mapped {Node Tile : Type} (W : World Node Tile)
    (fname : String) (LI : List Loop) (file : Option (StrMap Json)) (ev : List Event)
    (p : Params) (ids : List Int)
    (hload : loadConfiguration file = (ev, .ok p))
    (hreg : mapFind p.functionWithLoop fname = some ids)
    (hdo : p.doCGRAMapping = true)
    (hcan : (canMapImpl W.canSupport W.getOpcodeName
      (analyse W fname (collectTargetLoops p.targetNested LI ids []) p).cgra
      (analyse W fname (collectTargetLoops p.targetNested LI ids []) p).dfg).1 = true) :
    (runMapperImpl W fname LI file).trace.filterMap Event.schedulingCall
      = (schedule W p (analyse W fname (collectTargetLoops p.targetNested LI ids []) p)).1.filterMap
          Event.schedulingCall := by
  rw [runMapperImpl_of_load W fname LI file ev p hload,
    runConfigured_target W fname LI p ids hreg]
  simp only [mapStage_mapped W p _ hdo hcan, List.filterMap_append,
    filterMap_schedulingCall_load file ev p hload, filterMap_schedulingCall_analyseEvents,
    filterMap_schedulingCall_report, List.nil_append, List.append_nil]
  rfl

theorem analyse_II {Node Tile : Type} (W : World Node Tile) (fname : String)
    (targetLoops : List Loop) (p : Params) :
    (analyse W fname targetLoops p).II
      = initialII (W.getResMII (builtDFG W fname targetLoops p) (builtCGRA W p))
          (W.getRecMII (builtDFG W fname targetLoops p)) := rfl

/-- C11. On a run that reaches the mapping stage, with `r` the value of
`getResMII` and `c` the value of `getRecMII`, the scheduling calls of the run
are a single call, whose `II` argument is `r` when `r ≥ c` and `c` otherwise:
it is `max r c`, so below neither bound. -/
theorem runMapperImpl_schedule_II {Node Tile : Type} (W : World Node Tile)
    (fname : String) (LI : List Loop) (file : Option (StrMap Json)) (ev : List Event)
    (p : Params) (ids : List Int)
    (hload : loadConfiguration file = (ev, .ok p))
    (hreg : mapFind p.functionWithLoop fname = some ids)
    (hdo : p.doCGRAMapping = true)
    (hcan : (canMapImpl W.canSupport W.getOpcodeName
      (analyse W fname (collectTargetLoops p.targetNested LI ids []) p).cgra
      (analyse W fname (collectTargetLoops p.targetNested LI ids []) p).dfg).1 = true)
    (r c : Int)
    (hr : r = W.getResMII (builtDFG W fname (collectTargetLoops p.targetNested LI ids []) p)
      (builtCGRA W p))
    (hc : c = W.getRecMII (builtDFG W fname (collectTargetLoops p.targetNested LI ids []) p)) :
    ((runMapperImpl W fname LI file).trace.filterMap Event.schedulingCall).map Prod.snd
      = [if r ≥ c then r else c]
    ∧ (if r ≥ c then r else c) = max r c
    ∧ r ≤ (if r ≥ c then r else c) ∧ c ≤ (if r ≥ c then r else c) := by
  rw [schedulingCalls_of_mapped W fname LI file ev p ids hload hreg hdo hcan, schedule_events,
    analyse_II, ← hr, ← hc]
  refine ⟨?_, ?_, ?_, ?_⟩
  · have hII : initialII r c = if r ≥ c then r else c := by
      unfold initialII
      split <;> split <;> first | rfl | omega
    rw [hII]
    cases p.isStaticElasticCGRA <;> cases p.heuristicMapping <;> cases p.incrementalMapping <;> rfl
  · split
    · exact (max_eq_left (by omega)).symm
    · exact (max_eq_right (by omega)).symm
  · split <;> omega
  · split <;> omega

/-- C12. On a run that reaches the mapping stage, the scheduling calls of the
run are a single call: of `exhaustiveMap` when `isStaticElasticCGRA` is true or
`heuristicMapping` is false; of `incrementalMap` when `isStaticElasticCGRA` is
false and `heuristicMapping` and `incrementalMapping` are true; of
`heuristicMap` when `isStaticElasticCGRA` is false, `heuristicMapping` is true
and `incrementalMapping` is false. -/
theorem runMapperImpl_scheduler_choice {Node Tile : Type} (W : World Node Tile)
    (fname : String) (LI : List Loop) (file : Option (StrMap Json)) (ev : List Event)
    (p : Params) (ids : List Int)
    (hload : loadConfiguration file = (ev, .ok p))
    (hreg : mapFind p.functionWithLoop fname = some ids)
    (hdo : p.doCGRAMapping = true)
    (hcan : (canMapImpl W.canSupport W.getOpcodeName
      (analyse W fname (collectTargetLoops p.targetNested LI ids []) p).cgra
      (analyse W fname (collectTargetLoops p.targetNested LI ids []) p).dfg).1 = true) :
    (p.isStaticElasticCGRA = true ∨ p.heuristicMapping = false →
      ((runMapperImpl W fname LI file).trace.filterMap Event.schedulingCall).map Prod.fst
        = [Scheduler.exhaustiveMap])
    ∧ (p.isStaticElasticCGRA = false ∧ p.heuristicMapping = true ∧ p.incrementalMapping = true →
      ((runMapperImpl W fname LI file).trace.filterMap Event.schedulingCall).map Prod.fst
        = [Scheduler.incrementalMap])
    ∧ (p.isStaticElasticCGRA = false ∧ p.heuristicMapping = true ∧ p.incrementalMapping = false →
      ((runMapperImpl W fname LI file).trace.filterMap Event.schedulingCall).map Prod.fst
        = [Scheduler.heuristicMap]) := by
  rw [schedulingCalls_of_mapped W fname LI file ev p ids hload hreg hdo hcan, schedule_events]
  refine ⟨?_, ?_, ?_⟩
  · rintro (h | h)
    · rw [h]; rfl
    · rw [h]; cases p.isStaticElasticCGRA <;> rfl
  · rintro ⟨h1, h2, h3⟩
    rw [h1, h2, h3]; rfl
  · rintro ⟨h1, h2, h3⟩
    rw [h1, h2, h3]; rfl

/-- C11, instance: the configuration `fullConfig` on the sample world, where
`ResMII` is 1 and `RecMII` is 2. -/
theorem runMapperImpl_schedule_II_witness :
    loadConfiguration (some fullConfig) = ([], .ok fullParams)
    ∧ ((runMapperImpl sampleWorld "conv" sampleLoops (some fullConfig)).trace.filterMap
        Event.schedulingCall).map Prod.snd = [2] :=
  ⟨rfl,
    (runMapperImpl_schedule_II sampleWorld "conv" sampleLoops (some fullConfig) [] fullParams
      [2, 0] rfl (by decide) rfl (by decide) 1 2 rfl rfl).1.trans (by decide)⟩

/-- C12, instance: the configuration `fullConfig` on the sample world, with
`heuristicMapping` set and neither `isStaticElasticCGRA` nor
`incrementalMapping`. -/
theorem runMapperImpl_scheduler_choice_witness :
    loadConfiguration (some fullConfig) = ([], .ok fullParams)
    ∧ (fullParams.isStaticElasticCGRA = false ∧ fullParams.heuristicMapping = true
        ∧ fullParams.incrementalMapping = false)
    ∧ ((runMapperImpl sampleWorld "conv" sampleLoops (some fullConfig)).trace.filterMap
        Event.schedulingCall).map Prod.fst = [Scheduler.heuristicMap] :=
  ⟨rfl, ⟨rfl, rfl, rfl⟩,
    (runMapperImpl_scheduler_choice sampleWorld "conv" sampleLoops (some fullConfig) []
      fullParams [2, 0] rfl (by decide) rfl (by decide)).2.2 ⟨rfl, rfl, rfl⟩⟩

/-! ## Mapping disabled or impossible -/

theorem analyseEvents_not_mappingCall {Node Tile : Type} (W : World Node Tile) (fname : String)
    (targetLoops : List Loop) (p : Params) :
    ∀ e ∈ analyseEvents W fname targetLoops p, e.isMappingCall = false := by
  unfold analyseEvents
  cases p.enableExpandableMapping <;> cases p.supportDVFS <;>
    simp [Event.isMappingCall]

theorem canMap_not_mem_analyseEvents {Node Tile : Type} (W : World Node Tile) (fname : String)
    (targetLoops : List Loop) (p : Params) (r : Bool) (m : List String) :
    Event.canMap r m ∉ analyseEvents W fname targetLoops p := by
  unfold analyseEvents
  cases p.enableExpandableMapping <;> cases p.supportDVFS <;> simp

theorem analysis_outputs_mem_analyseEvents {Node Tile : Type} (W : World Node Tile)
    (fname : String) (targetLoops : List Loop) (p : Params) :
    Event.showOpcodeDistribution ∈ analyseEvents W fname targetLoops p
    ∧ Event.generateDot p.isTrimmedDemo ∈ analyseEvents W fname targetLoops p
    ∧ Event.generateDFGJSON ∈ analyseEvents W fname targetLoops p
    ∧ Event.getResMII (W.getResMII (builtDFG W fname targetLoops p) (builtCGRA W p))
        ∈ analyseEvents W fname targetLoops p
    ∧ Event.getRecMII (W.getRecMII (builtDFG W fname targetLoops p))
        ∈ analyseEvents W fname targetLoops p := by
  unfold analyseEvents
  cases p.enableExpandableMapping <;> cases p.supportDVFS <;> simp

theorem mapStage_disabled {Node Tile : Type} (W : World Node Tile) (p : Params)
    (a : Analysed Node Tile) (hdo : p.doCGRAMapping = false) :
    mapStage W p a = ⟨[], .returned false⟩ := by
  simp [mapStage, hdo]

theorem mapStage_impossible {Node Tile : Type} (W : World Node Tile) (p : Params)
    (a : Analysed Node Tile) (hdo : p.doCGRAMapping = true)
    (hcan : (canMapImpl W.canSupport W.getOpcodeName a.cgra a.dfg).1 = false) :
    mapStage W p a
      = ⟨[Event.canMap false (canMapImpl W.canSupport W.getOpcodeName a.cgra a.dfg).2,
          Event.mappingFail], .returned false⟩ := by
  simp [mapStage, hdo, hcan]

theorem load_events_plain (file : Option (StrMap Json)) (ev : List Event)
    (p : Params) (h : loadConfiguration file = (ev, .ok p)) :
    ev = [] ∨ ev = [Event.defaultParamsWarning] := by
  cases file with
  | none => exact Or.inr (loadConfiguration_ok_none ev p h).1
  | some param => exact Or.inl (loadConfiguration_ok_some param ev p h).1

/-- C14. On a target function, when `doCGRAMapping` is false, or it is true
and `canMapImpl` returns false: the run calls none of `heuristicMap`,
`incrementalMap`, `exhaustiveMap`, `showSchedule`, the schedule's
`generateJSON` and `generateJSON4IncrementalMap`, and returns false; the
opcode distribution, the DFG dot file, the DFG JSON file, `ResMII` and `RecMII`
are still produced; and `canMapImpl` is not evaluated when `doCGRAMapping` is
false. -/
theorem runMapperImpl_no_scheduling {Node Tile : Type} (W : World Node Tile)
    (fname : String) (LI : List Loop) (file : Option (StrMap Json)) (ev : List Event)
    (p : Params) (ids : List Int)
    (hload : loadConfiguration file = (ev, .ok p))
    (hreg : mapFind p.functionWithLoop fname = some ids)
    (hno : p.doCGRAMapping = false ∨
      (p.doCGRAMapping = true ∧ (canMapImpl W.canSupport W.getOpcodeName
        (analyse W fname (collectTargetLoops p.targetNested LI ids []) p).cgra
        (analyse W fname (collectTargetLoops p.targetNested LI ids []) p).dfg).1 = false)) :
    (∀ e ∈ (runMapperImpl W fname LI file).trace, e.isMappingCall = false)
    ∧ (runMapperImpl W fname LI file).outcome = .returned false
    ∧ Event.showOpcodeDistribution ∈ (runMapperImpl W fname LI file).trace
    ∧ Event.generateDot p.isTrimmedDemo ∈ (runMapperImpl W fname LI file).trace
    ∧ Event.generateDFGJSON ∈ (runMapperImpl W fname LI file).trace
    ∧ Event.getResMII
        (W.getResMII (builtDFG W fname (collectTargetLoops p.targetNested LI ids []) p)
          (builtCGRA W p)) ∈ (runMapperImpl W fname LI file).trace
    ∧ Event.getRecMII
        (W.getRecMII (builtDFG W fname (collectTargetLoops p.targetNested LI ids []) p))
        ∈ (runMapperImpl W fname LI file).trace
    ∧ (p.doCGRAMapping = false →
        ∀ r m, Event.canMap r m ∉ (runMapperImpl W fname LI file).trace) := by
  rw [runMapperImpl_of_load W fname LI file ev p hload,
    runConfigured_target W fname LI p ids hreg]
  obtain ⟨o1, o2, o3, o4, o5⟩ := analysis_outputs_mem_analyseEvents W fname
    (collectTargetLoops p.targetNested LI ids []) p
  have hev : ∀ e ∈ ev, e.isMappingCall = false ∧ ∀ r m, e ≠ Event.canMap r m := by
    intro e he
    rcases load_events_plain file ev p hload with rfl | rfl
    · cases he
    · simp only [List.mem_singleton] at he
      subst he
      exact ⟨rfl, fun r m h => Event.noConfusion h⟩
  have hstage : ∀ e ∈ (mapStage W p
      (analyse W fname (collectTargetLoops p.targetNested LI ids []) p)).trace,
      e.isMappingCall = false := by
    intro e he
    rcases hno with hdo | ⟨hdo, hcan⟩
    · rw [mapStage_disabled W p _ hdo] at he
      cases he
    · rw [mapStage_impossible W p _ hdo hcan] at he
      simp only [List.mem_cons, List.mem_singleton, List.not_mem_nil, or_false] at he
      rcases he with rfl | rfl <;> rfl
  refine ⟨?_, mapStage_outcome _ _ _, ?_, ?_, ?_, ?_, ?_, ?_⟩
  · intro e he
    simp only [List.mem_append, List.mem_cons, List.mem_singleton, List.not_mem_nil,
      or_false] at he
    rcases he with he | ((rfl | rfl) | he) | he
    · exact (hev e he).1
    · rfl
    · rfl
    · exact analyseEvents_not_mappingCall W fname _ p e he
    · exact hstage e he
  · simp only [List.mem_append]; exact Or.inr (Or.inl (Or.inr o1))
  · simp only [List.mem_append]; exact Or.inr (Or.inl (Or.inr o2))
  · simp only [List.mem_append]; exact Or.inr (Or.inl (Or.inr o3))
  · simp only [List.mem_append]; exact Or.inr (Or.inl (Or.inr o4))
  · simp only [List.mem_append]; exact Or.inr (Or.inl (Or.inr o5))
  · intro hdo r m he
    rw [mapStage_disabled W p _ hdo] at he
    simp only [List.mem_append, List.mem_cons, List.mem_singleton, List.not_mem_nil,
      or_false] at he
    rcases he with he | ((h | h) | he)
    · exact (hev _ he).2 r m rfl
    · exact Event.noConfusion h
    · exact Event.noConfusion h
    · exact canMap_not_mem_analyseEvents W fname _ p r m he

/-- C14, instance: the configuration `analysisOnlyConfig`, which sets
`doCGRAMapping` to false, on the sample world; and `fullConfig` on the world
whose DFG has nodes that no tile supports. -/
theorem runMapperImpl_no_scheduling_witness :
    loadConfiguration (some analysisOnlyConfig) = ([], .ok analysisOnlyParams)
    ∧ analysisOnlyParams.doCGRAMapping = false
    ∧ (runMapperImpl sampleWorld "conv" sampleLoops (some analysisOnlyConfig)).outcome
        = .returned false
    ∧ (∀ e ∈ (runMapperImpl sampleWorld "conv" sampleLoops (some analysisOnlyConfig)).trace,
        e.isMappingCall = false)
    ∧ ∀ e ∈ (runMapperImpl divWorld "conv" sampleLoops (some fullConfig)).trace,
        e.isMappingCall = false :=
  ⟨rfl, rfl,
    (runMapperImpl_no_scheduling sampleWorld "conv" sampleLoops (some analysisOnlyConfig) []
      analysisOnlyParams [2, 0] rfl (by decide) (Or.inl rfl)).2.1,
    (runMapperImpl_no_scheduling sampleWorld "conv" sampleLoops (some analysisOnlyConfig) []
      analysisOnlyParams [2, 0] rfl (by decide) (Or.inl rfl)).1,
    (runMapperImpl_no_scheduling divWorld "conv" sampleLoops (some fullConfig) []
      fullParams [2, 0] rfl (by decide) (Or.inr ⟨rfl, by decide⟩)).1⟩

end CGRAMapper
